import Mathlib

/-!
# AniData VPN: `ui/assets/lovable/animations.js`

A shallow embedding of the animation script and the properties of its binders.

The document is a state: the elements in document order (an element reference
of the script is the index of the element), the style blocks appended to the
head, the pending timers and the counter that gives a created node its identity.
An arrow function registered as a listener is a constructor of `Handler` holding
the variables the closure captured; `Handler.run` is the closure's body.

JavaScript numbers are IEEE 754 binary64 values given by their bit fields; the
arithmetic rounds the exact result to nearest, ties to even, and the conversion to
a string is `Number::toString`.  Events are dispatched to
the listeners of their target (bubbling to ancestors is outside the model, the
handlers of the script act on the element they were registered on).
-/

namespace AniData

set_option maxRecDepth 2000
set_option exponentiation.threshold 5000

/-! ## Numbers -/

/-- A JavaScript number: an IEEE 754 binary64 value given by its sign bit, its
biased exponent of 11 bits and its fraction of 52 bits. -/
structure JSNumber where
  sign : Bool
  exponent : Fin 2048
  fraction : Fin (2 ^ 52)
deriving DecidableEq, Repr

namespace JSNumber

/-- The value `NaN`. -/
def nan : JSNumber :=
  ⟨false, ⟨2047, by decide⟩, ⟨2 ^ 51, by decide⟩⟩

/-- The values `Infinity` and `-Infinity`. -/
def infinity (sign : Bool) : JSNumber :=
  ⟨sign, ⟨2047, by decide⟩, ⟨0, by decide⟩⟩

/-- Whether the number is `NaN`. -/
def isNaN (x : JSNumber) : Bool :=
  x.exponent.val == 2047 && x.fraction.val != 0

/-- Whether the number is neither `NaN` nor infinite. -/
def isFinite (x : JSNumber) : Bool :=
  x.exponent.val != 2047

/-- The absolute value of the number in units of `2 ^ -1074`: the fraction for a
subnormal number, `(2 ^ 52 + fraction) * 2 ^ (exponent - 1)` for a normal one. -/
def magnitude (x : JSNumber) : Nat :=
  if x.exponent.val = 0 then x.fraction.val
  else (2 ^ 52 + x.fraction.val) * 2 ^ (x.exponent.val - 1)

/-- The value of the number in units of `2 ^ -1074`. -/
def toUnits (x : JSNumber) : Int :=
  if x.sign then -(x.magnitude : Int) else (x.magnitude : Int)

/-- The value of a finite number as a rational. -/
def toRat (x : JSNumber) : ℚ :=
  x.toUnits / 2 ^ 1074

/-- The finite number `r` is as near to the rational `v` as any finite number. -/
def IsNearest (v : ℚ) (r : JSNumber) : Prop :=
  ∀ d : JSNumber, d.isFinite = true → |r.toRat - v| ≤ |d.toRat - v|

/-- The integer nearest to `num / den`, the even one of two nearest. -/
def roundHalfEven (num den : Nat) : Nat :=
  if 2 * (num % den) < den then num / den
  else if den < 2 * (num % den) then num / den + 1
  else if num / den % 2 = 0 then num / den
  else num / den + 1

/-- The position of the highest set bit among the lowest `2 ^ k` bits of `n`, by
halving the window: for `0 < n < 2 ^ 2 ^ k` it is the integer part of the binary
logarithm of `n`, and `2 ^ k - 1` for every larger `n`. -/
def log2Aux : Nat → Nat → Nat
  | 0, _ => 0
  | k + 1, n =>
    if 2 ^ 2 ^ k ≤ n then 2 ^ k + log2Aux k (n / 2 ^ 2 ^ k) else log2Aux k n

/-- The integer part of the binary logarithm of `n`, capped at 4095. -/
def log2 (n : Nat) : Nat :=
  log2Aux 12 n

/-- The number of the given sign whose absolute value is `p / q` units of
`2 ^ -1074`, rounded to the nearest binary64 value, ties to even; `Infinity` when
the rounded value is out of range. -/
def round (sign : Bool) (p q : Nat) : JSNumber :=
  let shift := log2 (p / q) - 52
  let bits := shift * 2 ^ 52 + roundHalfEven p (q * 2 ^ shift)
  if h : bits < 2047 * 2 ^ 52 then
    ⟨sign, ⟨bits / 2 ^ 52, Nat.div_lt_of_lt_mul (by omega)⟩,
      ⟨bits % 2 ^ 52, Nat.mod_lt _ (by decide)⟩⟩
  else infinity sign

/-- The value of the decimal literal `mant / 10 ^ scale`. -/
def ofDecimal (mant : Int) (scale : Nat) : JSNumber :=
  round (decide (mant < 0)) (mant.natAbs * 2 ^ 1074) (10 ^ scale)

/-- The JavaScript `a - b`. -/
def sub (a b : JSNumber) : JSNumber :=
  if a.isNaN || b.isNaN then nan
  else if !a.isFinite then (if !b.isFinite && a.sign == b.sign then nan else a)
  else if !b.isFinite then infinity (!b.sign)
  else if a.toUnits - b.toUnits = 0 then ⟨a.sign && !b.sign, ⟨0, by decide⟩, ⟨0, by decide⟩⟩
  else round (decide (a.toUnits - b.toUnits < 0)) (a.toUnits - b.toUnits).natAbs 1

/-- The JavaScript `a / 2`. -/
def half (a : JSNumber) : JSNumber :=
  if a.isFinite then round a.sign a.magnitude 2 else a

/-- The JavaScript `Math.max(a, b)`. -/
def max (a b : JSNumber) : JSNumber :=
  if a.isNaN || b.isNaN then nan
  else if a.toUnits < b.toUnits then b
  else if b.toUnits < a.toUnits then a
  else if a.sign then b else a

/-- Whether `p / q < 10 ^ n`. -/
def ltPow10 (p q : Nat) (n : Int) : Bool :=
  if 0 ≤ n then decide (p < q * 10 ^ n.toNat) else decide (p * 10 ^ (-n).toNat < q)

/-- The numerator and the denominator of `s * 10 ^ t` in units of `2 ^ -1074`. -/
def decimalUnits (s : Nat) (t : Int) : Nat × Nat :=
  if 0 ≤ t then (s * 10 ^ t.toNat * 2 ^ 1074, 1) else (s * 2 ^ 1074, 10 ^ (-t).toNat)

/-- Whether the decimal `s * 10 ^ t` has the positive number `x` as its value. -/
def readsAs (x : JSNumber) (s : Nat) (t : Int) : Bool :=
  decide (round false (decimalUnits s t).1 (decimalUnits s t).2
    = ⟨false, x.exponent, x.fraction⟩)

/-- The integer `s` of `k` digits, if any, for which `s * 10 ^ (n - k)` has the
value `x`, the closer to `x` of the two candidates below and above it. -/
def digitsOfLength (x : JSNumber) (n : Int) (k : Nat) : Option Nat :=
  let t := n - k
  let p := if 0 ≤ t then x.magnitude else x.magnitude * 10 ^ (-t).toNat
  let q := if 0 ≤ t then 2 ^ 1074 * 10 ^ t.toNat else 2 ^ 1074
  let lo := p / q
  let hi := lo + 1
  match readsAs x lo t, readsAs x hi t with
  | true, true =>
    if 2 * p < (lo + hi) * q then some lo
    else if (lo + hi) * q < 2 * p then some hi
    else if lo % 2 = 0 then some lo else some hi
  | true, false => some lo
  | false, true => some hi
  | false, false => none

/-- Drops the zeros at the end of a digit list. -/
def stripTrailingZeros (ds : List Char) : List Char :=
  (ds.reverse.dropWhile (fun c => c == '0')).reverse

/-- The digits and the decimal exponent `n` of the shortest decimal
`0.d₁d₂… * 10 ^ n` that has the positive finite number `x` as its value. -/
def shortestDecimal (x : JSNumber) : List Char × Int :=
  let n : Int := match (List.range 640).find? (fun i => ltPow10 x.magnitude (2 ^ 1074) (i - 324)) with
    | some i => i - 324
    | none => 0
  match (List.range 17).findSome? (fun i => (digitsOfLength x n (i + 1)).map (fun s => (s, i + 1))) with
  | some (s, k) => (stripTrailingZeros (Nat.toDigits 10 s), n + ((Nat.toDigits 10 s).length - k : Nat))
  | none => ([], n)

/-- The string of `Number::toString` for the digits `ds` and the exponent `n`. -/
def formatDecimal (ds : List Char) (n : Int) : List Char :=
  let k : Int := ds.length
  if k ≤ n ∧ n ≤ 21 then ds ++ List.replicate (n - k).toNat '0'
  else if 0 < n ∧ n ≤ 21 then ds.take n.toNat ++ '.' :: ds.drop n.toNat
  else if -6 < n ∧ n ≤ 0 then '0' :: '.' :: (List.replicate (-n).toNat '0' ++ ds)
  else
    let e := (if n - 1 < 0 then '-' else '+') :: Nat.toDigits 10 (n - 1).natAbs
    match ds with
    | [] => []
    | [d] => d :: 'e' :: e
    | d :: rest => d :: '.' :: (rest ++ 'e' :: e)

/-- The string JavaScript gives for a number inside a template literal
(`Number::toString` with radix 10). -/
def toJSString (x : JSNumber) : String :=
  if x.isNaN then "NaN"
  else if x.magnitude = 0 then "0"
  else if !x.isFinite then (if x.sign then "-Infinity" else "Infinity")
  else
    String.mk ((if x.sign then ['-'] else []) ++
      formatDecimal (shortestDecimal x).1 (shortestDecimal x).2)

end JSNumber

/-! ## The document -/

/-- The inline style properties (`element.style`) the script writes; an unset
property is the empty string. -/
structure Style where
  transform : String
  boxShadow : String
  transition : String
  animation : String
  backgroundSize : String
  position : String
  overflow : String
  width : String
  height : String
  left : String
  top : String
deriving DecidableEq, Repr

/-- The inline style of an element on which no property is set. -/
def Style.unset : Style :=
  ⟨"", "", "", "", "", "", "", "", "", "", ""⟩

/-- The properties of `getComputedStyle(element)` the script reads. -/
structure ComputedStyle where
  boxShadow : String
  transform : String
deriving DecidableEq, Repr

/-- The result of `getBoundingClientRect()`. -/
structure Rect where
  left : JSNumber
  top : JSNumber
  width : JSNumber
  height : JSNumber
deriving DecidableEq, Repr

/-- A child node of an element; `uid` is the identity of the node. -/
structure Node where
  uid : Nat
  localName : String
  classList : List String
  style : Style
deriving DecidableEq, Repr

/-- The event types the script listens to. -/
inductive EventType
  | mouseenter
  | mouseleave
  | mousedown
  | mouseup
  | click
deriving DecidableEq, Repr

/-- A mouse event: its type and the pointer coordinates. -/
structure Event where
  type : EventType
  clientX : JSNumber
  clientY : JSNumber
deriving DecidableEq, Repr

/-- The functions the script registers as listeners.  An arrow function is
given with the variables it captured (the element reference and the values read
at bind time); `createRippleEffect` is the named function of the script. -/
inductive Handler
  | buttonMouseenter (button : Nat)
  | buttonMouseleave (button : Nat) (originalShadow : String)
  | buttonMousedown (button : Nat)
  | buttonMouseup (button : Nat)
  | cardMouseenter (card : Nat)
  | cardMouseleave (card : Nat) (originalShadow originalTransform : String)
  | navMouseenter (item : Nat)
  | navMouseleave (item : Nat)
  | createRippleEffect
deriving DecidableEq, Repr

/-- An entry of an element's listener list. -/
structure Listener where
  type : EventType
  handler : Handler
deriving DecidableEq, Repr

/-- An element of the document. -/
structure Element where
  localName : String
  id : String
  classList : List String
  attributes : List (String × String)
  style : Style
  computed : ComputedStyle
  rect : Rect
  children : List Node
  listeners : List Listener
deriving DecidableEq, Repr

/-- The function passed to `setTimeout`: the arrow function `() => ripple.remove()`
with the node it captured. -/
inductive Callback
  | removeRipple (ripple : Nat)
deriving DecidableEq, Repr

/-- A pending one-shot timer. -/
structure Timer where
  callback : Callback
  delay : Nat
deriving DecidableEq, Repr

/-- The state the script works on. -/
structure Document where
  elements : List Element
  head : List String
  timers : List Timer
  nextUid : Nat
deriving DecidableEq, Repr

/-- The JavaScript `element.getAttribute(name)`; `none` stands for `null`. -/
def Element.getAttribute (e : Element) (name : String) : Option String :=
  e.attributes.lookup name

/-! ## Selectors -/

/-- A simple selector: a type selector, a class selector or an id selector. -/
inductive SimpleSelector
  | type (name : String)
  | cls (name : String)
  | id (name : String)
deriving DecidableEq, Repr

/-- Whether the element is selected by the simple selector. -/
def SimpleSelector.selects : SimpleSelector → Element → Bool
  | .type name, e => e.localName == name
  | .cls name, e => e.classList.contains name
  | .id name, e => e.id == name

/-- Whether the element is selected by one selector of a comma-separated list. -/
def selects (sel : List SimpleSelector) (e : Element) : Bool :=
  sel.any (fun s => s.selects e)

/-- The JavaScript `document.querySelectorAll(sel)`: the references of the
selected elements, in document order. -/
def querySelectorAll (sel : List SimpleSelector) (doc : Document) : List Nat :=
  (List.range doc.elements.length).filter (fun i =>
    match doc.elements[i]? with
    | some e => selects sel e
    | none => false)

/-- The selector `button, .action-button`. -/
def buttonSelector : List SimpleSelector := [.type "button", .cls "action-button"]

/-- The selector `.card, .panel, .server-item`. -/
def cardSelector : List SimpleSelector := [.cls "card", .cls "panel", .cls "server-item"]

/-- The selector `.status-indicator, #statusIndicator`. -/
def statusSelector : List SimpleSelector := [.cls "status-indicator", .id "statusIndicator"]

/-- The selector `.primary-button, .gradient-bg`. -/
def gradientSelector : List SimpleSelector := [.cls "primary-button", .cls "gradient-bg"]

/-- The selector `.nav-item, .tab-button`. -/
def navSelector : List SimpleSelector := [.cls "nav-item", .cls "tab-button"]

/-! ## Primitive operations on the document -/

/-- The JavaScript `nodes.forEach(body)` on the state. -/
def forEach (nodes : List Nat) (body : Nat → Document → Document) (doc : Document) :
    Document :=
  nodes.foldl (fun d i => body i d) doc

/-- A write through the element reference `i`. -/
def modifyElement (i : Nat) (f : Element → Element) (doc : Document) : Document :=
  { doc with elements := doc.elements.modify f i }

/-- A write to `element.style`. -/
def setStyle (i : Nat) (f : Style → Style) (doc : Document) : Document :=
  modifyElement i (fun e => { e with style := f e.style }) doc

/-- The JavaScript `getComputedStyle(element)`. -/
def getComputedStyle (doc : Document) (i : Nat) : ComputedStyle :=
  match doc.elements[i]? with
  | some e => e.computed
  | none => ⟨"", ""⟩

/-- Whether each evaluation of the function gives a new function object: true of
the arrow functions, false of the named function `createRippleEffect`. -/
def Handler.isClosure : Handler → Bool
  | .createRippleEffect => false
  | _ => true

/-- The listener list after `addEventListener(type, handler)`: the listener is
appended unless the same function object is registered for the type already. -/
def Element.addListener (type : EventType) (handler : Handler) (e : Element) : Element :=
  if !handler.isClosure && e.listeners.contains ⟨type, handler⟩ then e
  else { e with listeners := e.listeners ++ [⟨type, handler⟩] }

/-- The JavaScript `element.addEventListener(type, handler)`. -/
def addEventListener (i : Nat) (type : EventType) (handler : Handler) (doc : Document) :
    Document :=
  modifyElement i (Element.addListener type handler) doc

/-- Creates a style element with the text and appends it to the head. -/
def appendStyle (text : String) (doc : Document) : Document :=
  { doc with head := doc.head ++ [text] }

/-! ## Configuration -/

/-- The record `config` of the script. -/
structure Config where
  buttonHoverScale : JSNumber
  buttonPressScale : JSNumber
  transitionSpeed : String
  hoverElevation : String
  normalElevation : String
  cardHoverTransform : String
  statusIndicatorPulse : Bool
  enableGradientShift : Bool
deriving DecidableEq, Repr

/-- The values of `config` in the script. -/
def config : Config where
  buttonHoverScale := JSNumber.ofDecimal 105 2
  buttonPressScale := JSNumber.ofDecimal 98 2
  transitionSpeed := "0.3s"
  hoverElevation := "0px 6px 16px rgba(108, 92, 231, 0.25)"
  normalElevation := "0px 2px 8px rgba(108, 92, 231, 0.15)"
  cardHoverTransform := "translateY(-5px)"
  statusIndicatorPulse := true
  enableGradientShift := true

/-! ## The binders -/

/-- The function `applyButtonAnimations` of the script. -/
def applyButtonAnimations (doc : Document) : Document :=
  forEach (querySelectorAll buttonSelector doc) (fun button d =>
    let originalShadow := (getComputedStyle d button).boxShadow
    let d := addEventListener button .mouseenter (.buttonMouseenter button) d
    let d := addEventListener button .mouseleave (.buttonMouseleave button originalShadow) d
    let d := addEventListener button .mousedown (.buttonMousedown button) d
    addEventListener button .mouseup (.buttonMouseup button) d) doc

/-- The function `applyCardAnimations` of the script. -/
def applyCardAnimations (doc : Document) : Document :=
  forEach (querySelectorAll cardSelector doc) (fun card d =>
    let originalShadow := (getComputedStyle d card).boxShadow
    let originalTransform := (getComputedStyle d card).transform
    let d := addEventListener card .mouseenter (.cardMouseenter card) d
    addEventListener card .mouseleave
      (.cardMouseleave card originalShadow originalTransform) d) doc

/-- The text of the style element with the keyframes `pulse`. -/
def pulseKeyframes : String :=
  "\n                    @keyframes pulse \x7b\n                        0% \x7b box-shadow: 0 0 0 0 rgba(56, 178, 172, 0.4); \x7d\n                        70% \x7b box-shadow: 0 0 0 10px rgba(56, 178, 172, 0); \x7d\n                        100% \x7b box-shadow: 0 0 0 0 rgba(56, 178, 172, 0); \x7d\n                    \x7d\n                "

/-- The text of the style element with the keyframes `blink`. -/
def blinkKeyframes : String :=
  "\n                    @keyframes blink \x7b\n                        0% \x7b opacity: 1; \x7d\n                        50% \x7b opacity: 0.6; \x7d\n                        100% \x7b opacity: 1; \x7d\n                    \x7d\n                "

/-- The text of the style element with the keyframes `gradientShift`. -/
def gradientKeyframes : String :=
  "\n            @keyframes gradientShift \x7b\n                0% \x7b background-position: 0% 50%; \x7d\n                50% \x7b background-position: 100% 50%; \x7d\n                100% \x7b background-position: 0% 50%; \x7d\n            \x7d\n        "

/-- The text of the style element of the ripple. -/
def rippleStyleText : String :=
  "\n        .ripple \x7b\n            position: absolute;\n            background: rgba(255, 255, 255, 0.3);\n            border-radius: 50%;\n            transform: scale(0);\n            animation: ripple 0.6s linear;\n            pointer-events: none;\n        \x7d\n        \n        @keyframes ripple \x7b\n            to \x7b\n                transform: scale(2.5);\n                opacity: 0;\n            \x7d\n        \x7d\n    "

/-- The value of `indicator.getAttribute(name)` in the state. -/
def attributeOf (doc : Document) (i : Nat) (name : String) : Option String :=
  match doc.elements[i]? with
  | some e => e.getAttribute name
  | none => none

/-- The function `applyStatusIndicatorEffects` of the script. -/
def applyStatusIndicatorEffects (cfg : Config) (doc : Document) : Document :=
  let statusIndicators := querySelectorAll statusSelector doc
  if cfg.statusIndicatorPulse then
    forEach statusIndicators (fun indicator d =>
      let d :=
        if attributeOf d indicator "status" = some "connected" then
          let d := appendStyle pulseKeyframes d
          setStyle indicator (fun s => { s with animation := "pulse 2s infinite" }) d
        else d
      if attributeOf d indicator "status" = some "connecting" then
        let d := appendStyle blinkKeyframes d
        setStyle indicator (fun s => { s with animation := "blink 1.5s infinite" }) d
      else d) doc
  else doc

/-- The function `applyGradientEffects` of the script. -/
def applyGradientEffects (cfg : Config) (doc : Document) : Document :=
  if !cfg.enableGradientShift then doc
  else
    forEach (querySelectorAll gradientSelector doc) (fun element d =>
      let d := appendStyle gradientKeyframes d
      let d := setStyle element (fun s => { s with backgroundSize := "200% 200%" }) d
      setStyle element (fun s => { s with animation := "gradientShift 8s ease infinite" }) d)
      doc

/-- The function `addTransitionEffectsToNavigation` of the script. -/
def addTransitionEffectsToNavigation (cfg : Config) (doc : Document) : Document :=
  forEach (querySelectorAll navSelector doc) (fun item d =>
    let d := setStyle item
      (fun s => { s with transition := "all " ++ cfg.transitionSpeed ++ " ease" }) d
    let d := addEventListener item .mouseenter (.navMouseenter item) d
    addEventListener item .mouseleave (.navMouseleave item) d) doc

/-- The function `applyRippleEffect` of the script. -/
def applyRippleEffect (doc : Document) : Document :=
  let d := forEach (querySelectorAll buttonSelector doc) (fun button d =>
    let d := addEventListener button .click .createRippleEffect d
    let d := setStyle button (fun s => { s with position := "relative" }) d
    setStyle button (fun s => { s with overflow := "hidden" }) d) doc
  appendStyle rippleStyleText d

/-! ## The ripple -/

/-- The node made by `document.createElement(name)`: a new identity, no class
and no inline style. -/
def createElement (name : String) (doc : Document) : Node × Document :=
  (⟨doc.nextUid, name, [], Style.unset⟩, { doc with nextUid := doc.nextUid + 1 })

/-- The JavaScript `button.appendChild(node)`. -/
def appendChild (button : Nat) (node : Node) (doc : Document) : Document :=
  modifyElement button (fun e => { e with children := e.children ++ [node] }) doc

/-- A write through the node reference `uid`, wherever the node is attached. -/
def modifyNode (uid : Nat) (f : Node → Node) (doc : Document) : Document :=
  { doc with elements := doc.elements.map (fun e =>
      { e with children := e.children.map (fun c => if c.uid = uid then f c else c) }) }

/-- The JavaScript `node.remove()`: the node leaves the child list of its parent. -/
def removeNode (uid : Nat) (doc : Document) : Document :=
  { doc with elements := doc.elements.map (fun e =>
      { e with children := e.children.filter (fun c => c.uid ≠ uid) }) }

/-- The JavaScript `button.getBoundingClientRect()`. -/
def getBoundingClientRect (doc : Document) (i : Nat) : Rect :=
  match doc.elements[i]? with
  | some e => e.rect
  | none => ⟨JSNumber.ofDecimal 0 0, JSNumber.ofDecimal 0 0, JSNumber.ofDecimal 0 0,
    JSNumber.ofDecimal 0 0⟩

/-- The JavaScript `setTimeout(callback, delay)`. -/
def setTimeout (callback : Callback) (delay : Nat) (doc : Document) : Document :=
  { doc with timers := doc.timers ++ [⟨callback, delay⟩] }

/-- The template literal that gives a length in pixels. -/
def px (n : JSNumber) : String :=
  n.toJSString ++ "px"

/-- The function `createRippleEffect` of the script; `currentTarget` is
`event.currentTarget`. -/
def createRippleEffect (event : Event) (currentTarget : Nat) (doc : Document) : Document :=
  let button := currentTarget
  let (ripple, d) := createElement "span" doc
  let ripple := { ripple with classList := ripple.classList ++ ["ripple"] }
  let d := appendChild button ripple d
  let rect := getBoundingClientRect d button
  let size := JSNumber.max rect.width rect.height
  let x := (event.clientX.sub rect.left).sub size.half
  let y := (event.clientY.sub rect.top).sub size.half
  let d := modifyNode ripple.uid (fun n => { n with style := { n.style with height := px size } }) d
  let d := modifyNode ripple.uid (fun n => { n with style := { n.style with width := px size } }) d
  let d := modifyNode ripple.uid (fun n => { n with style := { n.style with left := px x } }) d
  let d := modifyNode ripple.uid (fun n => { n with style := { n.style with top := px y } }) d
  setTimeout (.removeRipple ripple.uid) 600 d

/-! ## Events and timers -/

/-- The body of a registered function, run for an event on `currentTarget`. -/
def Handler.run (cfg : Config) (event : Event) (currentTarget : Nat) :
    Handler → Document → Document
  | .buttonMouseenter button, d =>
    let d := setStyle button (fun s =>
      { s with transform := "scale(" ++ cfg.buttonHoverScale.toJSString ++ ")" }) d
    let d := setStyle button (fun s => { s with boxShadow := cfg.hoverElevation }) d
    setStyle button (fun s => { s with transition := "all " ++ cfg.transitionSpeed ++ " ease" }) d
  | .buttonMouseleave button originalShadow, d =>
    let d := setStyle button (fun s => { s with transform := "scale(1)" }) d
    let d := setStyle button (fun s => { s with boxShadow := originalShadow }) d
    setStyle button (fun s => { s with transition := "all " ++ cfg.transitionSpeed ++ " ease" }) d
  | .buttonMousedown button, d =>
    let d := setStyle button (fun s =>
      { s with transform := "scale(" ++ cfg.buttonPressScale.toJSString ++ ")" }) d
    setStyle button (fun s => { s with transition := "all 0.1s ease" }) d
  | .buttonMouseup button, d =>
    let d := setStyle button (fun s =>
      { s with transform := "scale(" ++ cfg.buttonHoverScale.toJSString ++ ")" }) d
    setStyle button (fun s => { s with transition := "all " ++ cfg.transitionSpeed ++ " ease" }) d
  | .cardMouseenter card, d =>
    let d := setStyle card (fun s => { s with transform := cfg.cardHoverTransform }) d
    let d := setStyle card (fun s => { s with boxShadow := cfg.hoverElevation }) d
    setStyle card (fun s => { s with transition := "all " ++ cfg.transitionSpeed ++ " ease" }) d
  | .cardMouseleave card originalShadow originalTransform, d =>
    let d := setStyle card (fun s => { s with transform := originalTransform }) d
    let d := setStyle card (fun s => { s with boxShadow := originalShadow }) d
    setStyle card (fun s => { s with transition := "all " ++ cfg.transitionSpeed ++ " ease" }) d
  | .navMouseenter item, d =>
    setStyle item (fun s => { s with transform := "translateY(-2px)" }) d
  | .navMouseleave item, d =>
    setStyle item (fun s => { s with transform := "translateY(0)" }) d
  | .createRippleEffect, d => AniData.createRippleEffect event currentTarget d

/-- Dispatches the event to the element `target`: the listeners registered for
the type of the event run in the order of their registration. -/
def dispatchEvent (cfg : Config) (event : Event) (target : Nat) (doc : Document) :
    Document :=
  match doc.elements[target]? with
  | none => doc
  | some e =>
    (e.listeners.filter (fun l => l.type = event.type)).foldl
      (fun d l => l.handler.run cfg event target d) doc

/-- Dispatches the events to the element `target`, one after the other. -/
def dispatchEvents (cfg : Config) (events : List Event) (target : Nat) (doc : Document) :
    Document :=
  events.foldl (fun d event => dispatchEvent cfg event target d) doc

/-- The body of a timer callback. -/
def Callback.run : Callback → Document → Document
  | .removeRipple ripple, d => removeNode ripple d

/-- The timer at position `k` of the queue expires: it leaves the queue (it is
one-shot) and its callback runs. -/
def fireTimer (k : Nat) (doc : Document) : Document :=
  match doc.timers[k]? with
  | none => doc
  | some t => t.callback.run { doc with timers := doc.timers.eraseIdx k }

/-- The handler of `DOMContentLoaded`. -/
def onDOMContentLoaded (cfg : Config) (doc : Document) : Document :=
  let d := applyButtonAnimations doc
  let d := applyCardAnimations d
  let d := applyStatusIndicatorEffects cfg d
  let d := applyGradientEffects cfg d
  addTransitionEffectsToNavigation cfg d

/-! ## Vocabulary of the properties -/

/-- The event type each function of the script is registered for. -/
def Handler.eventType : Handler → EventType
  | .buttonMouseenter _ => .mouseenter
  | .buttonMouseleave _ _ => .mouseleave
  | .buttonMousedown _ => .mousedown
  | .buttonMouseup _ => .mouseup
  | .cardMouseenter _ => .mouseenter
  | .cardMouseleave _ _ _ => .mouseleave
  | .navMouseenter _ => .mouseenter
  | .navMouseleave _ => .mouseleave
  | .createRippleEffect => .click

/-- The listener lists of the elements, in document order. -/
def listenersOf (d : Document) : List (List Listener) :=
  d.elements.map Element.listeners

/-- The inline box shadows of the elements, in document order. -/
def shadowsOf (d : Document) : List String :=
  d.elements.map (fun e => e.style.boxShadow)

/-- The inline `transform` of the element `i`. -/
def transformOf (d : Document) (i : Nat) : Option String :=
  (d.elements[i]?).map (fun e => e.style.transform)

/-- The inline `boxShadow` of the element `i`. -/
def boxShadowOf (d : Document) (i : Nat) : Option String :=
  (d.elements[i]?).map (fun e => e.style.boxShadow)

/-- The inline `animation` of the element `i`. -/
def animationOf (d : Document) (i : Nat) : Option String :=
  (d.elements[i]?).map (fun e => e.style.animation)

/-- The child list of the element `i`. -/
def childrenOf (d : Document) (i : Nat) : Option (List Node) :=
  (d.elements[i]?).map Element.children

/-- The number of listeners the element carries for the event type. -/
def listenerCount (type : EventType) (e : Element) : Nat :=
  (e.listeners.filter (fun l => l.type = type)).length

/-- The listeners one run of `applyButtonAnimations` registers on a button. -/
def buttonListeners (button : Nat) (originalShadow : String) : List Listener :=
  [⟨.mouseenter, .buttonMouseenter button⟩,
    ⟨.mouseleave, .buttonMouseleave button originalShadow⟩,
    ⟨.mousedown, .buttonMousedown button⟩, ⟨.mouseup, .buttonMouseup button⟩]

/-- The button after one run of `applyButtonAnimations`. -/
def bindButton (button : Nat) (e : Element) : Element :=
  { e with listeners := e.listeners ++ buttonListeners button e.computed.boxShadow }

/-- The listeners one run of `applyCardAnimations` registers on a card. -/
def cardListeners (card : Nat) (originalShadow originalTransform : String) : List Listener :=
  [⟨.mouseenter, .cardMouseenter card⟩,
    ⟨.mouseleave, .cardMouseleave card originalShadow originalTransform⟩]

/-- The card after one run of `applyCardAnimations`. -/
def bindCard (card : Nat) (e : Element) : Element :=
  { e with listeners := e.listeners ++ cardListeners card e.computed.boxShadow e.computed.transform }

/-- The size of the overlay: `Math.max(rect.width, rect.height)`. -/
def rippleSize (rect : Rect) : JSNumber :=
  JSNumber.max rect.width rect.height

/-- The left offset of the overlay: `event.clientX - rect.left - size / 2`. -/
def rippleLeft (rect : Rect) (event : Event) : JSNumber :=
  (event.clientX.sub rect.left).sub (rippleSize rect).half

/-- The top offset of the overlay: `event.clientY - rect.top - size / 2`. -/
def rippleTop (rect : Rect) (event : Event) : JSNumber :=
  (event.clientY.sub rect.top).sub (rippleSize rect).half

/-- The overlay a click on a button with the bounding rectangle `rect` creates. -/
def rippleNode (uid : Nat) (rect : Rect) (event : Event) : Node :=
  let size := JSNumber.max rect.width rect.height
  { uid := uid
    localName := "span"
    classList := ["ripple"]
    style := { Style.unset with
      width := px size
      height := px size
      left := px ((event.clientX.sub rect.left).sub size.half)
      top := px ((event.clientY.sub rect.top).sub size.half) } }

/-- The overlays of successive clicks, the first of them with the identity `uid`. -/
def ripplesFrom (uid : Nat) (rect : Rect) : List Event → List Node
  | [] => []
  | event :: rest => rippleNode uid rect event :: ripplesFrom (uid + 1) rect rest

/-- The timers of `n` successive clicks, the first overlay with the identity `uid`. -/
def rippleTimers (uid : Nat) : Nat → List Timer
  | 0 => []
  | n + 1 => ⟨.removeRipple uid, 600⟩ :: rippleTimers (uid + 1) n

/-- Successive clicks on the button `button`. -/
def clicks (events : List Event) (button : Nat) (doc : Document) : Document :=
  events.foldl (fun d event => createRippleEffect event button d) doc

/-- The status indicator after `applyStatusIndicatorEffects` with the pulse enabled. -/
def bindIndicator (e : Element) : Element :=
  let e1 :=
    if e.getAttribute "status" = some "connected" then
      { e with style := { e.style with animation := "pulse 2s infinite" } }
    else e
  if e1.getAttribute "status" = some "connecting" then
    { e1 with style := { e1.style with animation := "blink 1.5s infinite" } }
  else e1

/-- The binders of the script. -/
inductive Binder
  | applyButtonAnimations
  | applyCardAnimations
  | applyStatusIndicatorEffects
  | applyGradientEffects
  | addTransitionEffectsToNavigation
  | applyRippleEffect
deriving DecidableEq, Repr

/-- The selector the binder queries the document with. -/
def Binder.selector : Binder → List SimpleSelector
  | .applyButtonAnimations => buttonSelector
  | .applyCardAnimations => cardSelector
  | .applyStatusIndicatorEffects => statusSelector
  | .applyGradientEffects => gradientSelector
  | .addTransitionEffectsToNavigation => navSelector
  | .applyRippleEffect => buttonSelector

/-- A call of the binder. -/
def Binder.call (cfg : Config) : Binder → Document → Document
  | .applyButtonAnimations => AniData.applyButtonAnimations
  | .applyCardAnimations => AniData.applyCardAnimations
  | .applyStatusIndicatorEffects => AniData.applyStatusIndicatorEffects cfg
  | .applyGradientEffects => AniData.applyGradientEffects cfg
  | .addTransitionEffectsToNavigation => AniData.addTransitionEffectsToNavigation cfg
  | .applyRippleEffect => AniData.applyRippleEffect

/-! ## Sample documents -/

/-- A button without inline style, with the computed style of a plain element. -/
def plainButton : Element :=
  { localName := "button"
    id := "connectButton"
    classList := ["action-button"]
    attributes := []
    style := Style.unset
    computed := ⟨"none", "none"⟩
    rect := ⟨JSNumber.ofDecimal 10 0, JSNumber.ofDecimal 5 0, JSNumber.ofDecimal 100 0,
      JSNumber.ofDecimal 40 0⟩
    children := []
    listeners := [] }

/-- A document with the plain button as its only element. -/
def plainButtonDocument : Document :=
  { elements := [plainButton], head := [], timers := [], nextUid := 0 }

/-- A mouse event of the given type at the point (30, 20). -/
def mouseEvent (type : EventType) : Event :=
  ⟨type, JSNumber.ofDecimal 30 0, JSNumber.ofDecimal 20 0⟩

/-- A card with a computed shadow and a computed transform of its own. -/
def serverItem : Element :=
  { localName := "div"
    id := ""
    classList := ["server-item"]
    attributes := []
    style := Style.unset
    computed := ⟨"rgba(0, 0, 0, 0.2) 0px 1px 3px 0px", "matrix(1, 0, 0, 1, 0, 4)"⟩
    rect := ⟨JSNumber.ofDecimal 0 0, JSNumber.ofDecimal 0 0, JSNumber.ofDecimal 200 0,
      JSNumber.ofDecimal 60 0⟩
    children := []
    listeners := [] }

/-- A document with the card as its only element. -/
def serverItemDocument : Document :=
  { elements := [serverItem], head := [], timers := [], nextUid := 0 }

/-- A status indicator with the given `status` attribute, if any, and an inline
animation of its own. -/
def statusIndicator (status : Option String) : Element :=
  { localName := "div"
    id := "statusIndicator"
    classList := ["status-indicator"]
    attributes := match status with
      | some value => [("title", "VPN"), ("status", value)]
      | none => [("title", "VPN")]
    style := { Style.unset with animation := "fade 1s" }
    computed := ⟨"none", "none"⟩
    rect := ⟨JSNumber.ofDecimal 0 0, JSNumber.ofDecimal 0 0, JSNumber.ofDecimal 12 0,
      JSNumber.ofDecimal 12 0⟩
    children := []
    listeners := [] }

/-- A document with four status indicators: connected, connecting, disconnected
and one without the attribute. -/
def statusDocument : Document :=
  { elements := [statusIndicator (some "connected"), statusIndicator (some "connecting"),
      statusIndicator (some "disconnected"), statusIndicator none]
    head := [], timers := [], nextUid := 0 }

/-- A primary button with a gradient background. -/
def primaryButton : Element :=
  { plainButton with classList := ["primary-button", "gradient-bg"] }

/-- A document with the primary button as its only element. -/
def gradientDocument : Document :=
  { elements := [primaryButton], head := [], timers := [], nextUid := 0 }

/-- A click at the point (`x`, `y`). -/
def clickAt (x y : JSNumber) : Event :=
  ⟨.click, x, y⟩

/-- A button laid out at fractional pixels: left 8.1, top 0.2, width 80.3 and
height 32.5. -/
def fractionalButton : Element :=
  { plainButton with
    rect := ⟨JSNumber.ofDecimal 81 1, JSNumber.ofDecimal 2 1, JSNumber.ofDecimal 803 1,
      JSNumber.ofDecimal 325 1⟩ }

/-- A document with the fractional button as its only element. -/
def fractionalDocument : Document :=
  { elements := [fractionalButton], head := [], timers := [], nextUid := 0 }

/-- An empty button at the point (0.1, 0.2). -/
def pointButton : Element :=
  { plainButton with
    rect := ⟨JSNumber.ofDecimal 1 1, JSNumber.ofDecimal 2 1, JSNumber.ofDecimal 0 0,
      JSNumber.ofDecimal 0 0⟩ }

/-- A document with the empty button as its only element. -/
def pointDocument : Document :=
  { elements := [pointButton], head := [], timers := [], nextUid := 0 }

/-! ## Numbers: rounding to nearest -/

namespace JSNumber

theorem log2Aux_spec : ∀ (k n : Nat),
    (n < 2 ^ 2 ^ k → 0 < n → 2 ^ log2Aux k n ≤ n ∧ n < 2 ^ (log2Aux k n + 1)) ∧
    (n = 0 → log2Aux k n = 0) ∧ (2 ^ 2 ^ k ≤ n → log2Aux k n = 2 ^ k - 1) := by
  intro k
  induction k with
  | zero =>
    intro n
    refine ⟨fun h hpos => ?_, fun _ => rfl, fun _ => rfl⟩
    simp only [log2Aux]
    simp at h
    omega
  | succ k ih =>
    intro n
    have hpow : (2 : Nat) ^ 2 ^ (k + 1) = 2 ^ 2 ^ k * 2 ^ 2 ^ k := by
      rw [pow_succ, pow_mul, sq]
    have hpos2 : 0 < (2 : Nat) ^ 2 ^ k := by positivity
    refine ⟨fun h hpos => ?_, fun h0 => ?_, fun hbig => ?_⟩
    · simp only [log2Aux]
      split
      · rename_i hge
        have hdivlt : n / 2 ^ 2 ^ k < 2 ^ 2 ^ k := by
          rw [Nat.div_lt_iff_lt_mul hpos2, ← hpow]; exact h
        have hdivpos : 0 < n / 2 ^ 2 ^ k := Nat.div_pos hge hpos2
        obtain ⟨h1, h2⟩ := (ih (n / 2 ^ 2 ^ k)).1 hdivlt hdivpos
        constructor
        · rw [pow_add]
          calc 2 ^ 2 ^ k * 2 ^ log2Aux k (n / 2 ^ 2 ^ k)
              ≤ 2 ^ 2 ^ k * (n / 2 ^ 2 ^ k) := Nat.mul_le_mul_left _ h1
            _ ≤ n := Nat.mul_div_le n _
        · have h3 : n / 2 ^ 2 ^ k + 1 ≤ 2 ^ (log2Aux k (n / 2 ^ 2 ^ k) + 1) := h2
          have h4 : n < 2 ^ 2 ^ k * (n / 2 ^ 2 ^ k + 1) := Nat.lt_mul_div_succ n hpos2
          calc n < 2 ^ 2 ^ k * (n / 2 ^ 2 ^ k + 1) := h4
            _ ≤ 2 ^ 2 ^ k * 2 ^ (log2Aux k (n / 2 ^ 2 ^ k) + 1) := Nat.mul_le_mul_left _ h3
            _ = 2 ^ (2 ^ k + log2Aux k (n / 2 ^ 2 ^ k) + 1) := by rw [← pow_add]; rfl
      · rename_i hlt
        exact (ih n).1 (Nat.lt_of_not_le hlt) hpos
    · subst h0
      simp only [log2Aux]
      rw [if_neg (by omega)]
      exact (ih 0).2.1 rfl
    · simp only [log2Aux]
      have hge : 2 ^ 2 ^ k ≤ n := by
        calc 2 ^ 2 ^ k ≤ 2 ^ 2 ^ k * 2 ^ 2 ^ k := Nat.le_mul_of_pos_right _ hpos2
          _ = 2 ^ 2 ^ (k + 1) := hpow.symm
          _ ≤ n := hbig
      rw [if_pos hge]
      have hdiv : 2 ^ 2 ^ k ≤ n / 2 ^ 2 ^ k := by
        rw [Nat.le_div_iff_mul_le hpos2, ← hpow]; exact hbig
      rw [(ih _).2.2 hdiv, pow_succ]
      have : 1 ≤ 2 ^ k := Nat.one_le_two_pow
      omega

theorem log2_le (n : Nat) : log2 n ≤ 4095 := by
  unfold log2
  by_cases h : 2 ^ 2 ^ 12 ≤ n
  · rw [(log2Aux_spec 12 n).2.2 h]; norm_num
  · by_cases h0 : n = 0
    · rw [(log2Aux_spec 12 n).2.1 h0]; omega
    · have := (log2Aux_spec 12 n).1 (Nat.lt_of_not_le h) (Nat.pos_of_ne_zero h0)
      have h2 : 2 ^ log2Aux 12 n < 2 ^ 2 ^ 12 :=
        Nat.lt_of_le_of_lt this.1 (Nat.lt_of_not_le h)
      have h3 := (Nat.pow_lt_pow_iff_right (by decide : 1 < 2)).mp h2
      norm_num at h3
      omega

/-- Below the cap, `log2 n` is the integer part of the binary logarithm. -/
theorem log2_spec (n : Nat) (hpos : 0 < n) (hcap : log2 n < 4095) :
    2 ^ log2 n ≤ n ∧ n < 2 ^ (log2 n + 1) := by
  unfold log2 at *
  by_cases h : 2 ^ 2 ^ 12 ≤ n
  · rw [(log2Aux_spec 12 n).2.2 h] at hcap
    norm_num at hcap
  · exact (log2Aux_spec 12 n).1 (Nat.lt_of_not_le h) hpos

theorem log2_zero : log2 0 = 0 := (log2Aux_spec 12 0).2.1 rfl

theorem roundHalfEven_cases (num den : Nat) :
    (roundHalfEven num den = num / den ∧ 2 * (num % den) ≤ den) ∨
      (roundHalfEven num den = num / den + 1 ∧ den ≤ 2 * (num % den)) := by
  unfold roundHalfEven
  split
  · left; exact ⟨rfl, by omega⟩
  · split
    · right; exact ⟨rfl, by omega⟩
    · split
      · left; exact ⟨rfl, by omega⟩
      · right; exact ⟨rfl, by omega⟩

/-- No integer multiple of `den` is nearer to `num` than `roundHalfEven num den`
times `den`. -/
theorem roundHalfEven_nearest (num den : Nat) (hden : 0 < den) (k : Int) :
    |(roundHalfEven num den : Int) * den - num| ≤ |k * den - num| := by
  have hnum : (num : Int) = (num / den : Nat) * den + (num % den : Nat) := by
    have := Nat.div_add_mod num den
    have h2 : ((den * (num / den) + num % den : Nat) : Int) = (num : Int) := by rw [this]
    push_cast at h2
    push_cast
    linarith
  have hr : ((num % den : Nat) : Int) < den := by exact_mod_cast Nat.mod_lt num hden
  have hr0 : (0 : Int) ≤ (num % den : Nat) := Int.ofNat_nonneg _
  have hd : (0 : Int) < den := by exact_mod_cast hden
  generalize hq : ((num / den : Nat) : Int) = q0 at hnum
  generalize hrr : ((num % den : Nat) : Int) = r at hnum hr hr0
  have hkey : ∀ j : Int, (j ≤ 0 → -(j * den - r) ≥ r) ∧ (1 ≤ j → j * den - r ≥ den - r) := by
    intro j
    constructor
    · intro hj
      have : j * den ≤ 0 := mul_nonpos_of_nonpos_of_nonneg hj hd.le
      linarith
    · intro hj
      have : 1 * (den : Int) ≤ j * den := mul_le_mul_of_nonneg_right hj hd.le
      linarith
  have hk : k * den - num = (k - q0) * den - r := by rw [hnum]; ring
  rw [hk]
  rcases roundHalfEven_cases num den with ⟨hM, hle⟩ | ⟨hM, hle⟩
  · have hle' : 2 * r ≤ den := by rw [← hrr]; exact_mod_cast hle
    have hM' : (roundHalfEven num den : Int) * den - num = -r := by
      rw [hM, hq, hnum]; ring
    rw [hM', abs_neg, abs_of_nonneg hr0]
    rcases le_or_lt (k - q0) 0 with hj | hj
    · have := (hkey (k - q0)).1 hj
      rw [abs_of_nonpos (by linarith)]
      linarith
    · have := (hkey (k - q0)).2 (by omega)
      rw [abs_of_nonneg (by linarith)]
      linarith
  · have hle' : (den : Int) ≤ 2 * r := by rw [← hrr]; exact_mod_cast hle
    have hM' : (roundHalfEven num den : Int) * den - num = den - r := by
      rw [hM, Nat.cast_add, Nat.cast_one, hq, hnum]; ring
    rw [hM', abs_of_nonneg (by linarith)]
    rcases le_or_lt (k - q0) 0 with hj | hj
    · have := (hkey (k - q0)).1 hj
      rw [abs_of_nonpos (by linarith)]
      linarith
    · have := (hkey (k - q0)).2 (by omega)
      rw [abs_of_nonneg (by linarith)]
      linarith

theorem le_roundHalfEven (num den a : Nat) (hden : 0 < den) (h : a * den ≤ num) :
    a ≤ roundHalfEven num den := by
  have h1 : a ≤ num / den := (Nat.le_div_iff_mul_le hden).mpr h
  rcases roundHalfEven_cases num den with ⟨hM, -⟩ | ⟨hM, -⟩ <;> omega

theorem roundHalfEven_le (num den b : Nat) (hden : 0 < den) (h : num ≤ b * den) :
    roundHalfEven num den ≤ b := by
  have h1 : num / den ≤ b := by
    calc num / den ≤ b * den / den := Nat.div_le_div_right h
      _ = b := Nat.mul_div_cancel _ hden
  rcases roundHalfEven_cases num den with ⟨hM, -⟩ | ⟨hM, hle⟩
  · omega
  · rcases Nat.lt_or_ge (num / den) b with hlt | hge
    · omega
    · have hb : num / den = b := Nat.le_antisymm h1 hge
      have hdm := Nat.div_add_mod num den
      rw [hb, Nat.mul_comm] at hdm
      have hmod : num % den = 0 := by omega
      omega

theorem round_of_isFinite (sign : Bool) (p q : Nat)
    (h : (round sign p q).isFinite = true) :
    (log2 (p / q) - 52) * 2 ^ 52 + roundHalfEven p (q * 2 ^ (log2 (p / q) - 52))
        < 2047 * 2 ^ 52 ∧
      (round sign p q).sign = sign ∧
      (round sign p q).exponent.val = ((log2 (p / q) - 52) * 2 ^ 52
        + roundHalfEven p (q * 2 ^ (log2 (p / q) - 52))) / 2 ^ 52 ∧
      (round sign p q).fraction.val = ((log2 (p / q) - 52) * 2 ^ 52
        + roundHalfEven p (q * 2 ^ (log2 (p / q) - 52))) % 2 ^ 52 := by
  unfold round at h ⊢
  simp only at h ⊢
  split
  · rename_i hlt
    exact ⟨hlt, rfl, rfl, rfl⟩
  · rename_i hge
    rw [dif_neg hge] at h
    simp [isFinite, infinity] at h
    exact absurd rfl h

theorem magnitude_of_bits (x : JSNumber) (s m : Nat)
    (hex : x.exponent.val = (s * 2 ^ 52 + m) / 2 ^ 52)
    (hfr : x.fraction.val = (s * 2 ^ 52 + m) % 2 ^ 52)
    (hm : m ≤ 2 ^ 53) (hs : 0 < s → 2 ^ 52 ≤ m) : x.magnitude = m * 2 ^ s := by
  unfold magnitude
  rcases Nat.lt_or_ge m (2 ^ 52) with h1 | h1
  · have hs0 : s = 0 := by
      by_contra hne
      have := hs (Nat.pos_of_ne_zero hne)
      omega
    subst hs0
    have he : x.exponent.val = 0 := by omega
    have hf : x.fraction.val = m := by omega
    rw [if_pos he, hf, pow_zero, Nat.mul_one]
  · rcases Nat.lt_or_ge m (2 ^ 53) with h2 | h2
    · have he : x.exponent.val = s + 1 := by omega
      have hf : x.fraction.val = m - 2 ^ 52 := by omega
      rw [if_neg (by omega), he, hf, Nat.add_sub_cancel, Nat.add_sub_cancel' h1]
    · have hm53 : m = 2 ^ 53 := Nat.le_antisymm hm h2
      have he : x.exponent.val = s + 2 := by omega
      have hf : x.fraction.val = 0 := by omega
      rw [if_neg (by omega), he, hf, hm53]
      have : s + 2 - 1 = s + 1 := by omega
      rw [this, pow_succ]
      ring

theorem magnitude_grid (d : JSNumber) (s : Nat) (h : 2 ^ (52 + s) ≤ d.magnitude) :
    ∃ k, d.magnitude = k * 2 ^ s := by
  unfold magnitude at h ⊢
  by_cases he : d.exponent.val = 0
  · rw [if_pos he] at h
    have hf : d.fraction.val < 2 ^ 52 := d.fraction.isLt
    have : 2 ^ 52 ≤ 2 ^ (52 + s) := Nat.pow_le_pow_right (by decide) (by omega)
    omega
  · rw [if_neg he] at h ⊢
    have hf : d.fraction.val < 2 ^ 52 := d.fraction.isLt
    have hlt : (2 ^ 52 + d.fraction.val) * 2 ^ (d.exponent.val - 1)
        < 2 ^ 53 * 2 ^ (d.exponent.val - 1) :=
      Nat.mul_lt_mul_of_pos_right (by omega) (by positivity)
    rw [← pow_add] at hlt
    have hpow : 2 ^ (52 + s) < 2 ^ (53 + (d.exponent.val - 1)) := Nat.lt_of_le_of_lt h hlt
    have hexp := (Nat.pow_lt_pow_iff_right (by decide : 1 < 2)).mp hpow
    refine ⟨(2 ^ 52 + d.fraction.val) * 2 ^ (d.exponent.val - 1 - s), ?_⟩
    rw [Nat.mul_assoc, ← pow_add]
    congr 2
    omega

theorem round_bounds (p q : Nat) (hq : 0 < q) (hcap : log2 (p / q) < 4095) :
    p ≤ 2 ^ 53 * (q * 2 ^ (log2 (p / q) - 52)) ∧
      (0 < log2 (p / q) - 52 → 2 ^ 52 * (q * 2 ^ (log2 (p / q) - 52)) ≤ p) := by
  constructor
  · have h1 : p < q * (p / q + 1) := Nat.lt_mul_div_succ p hq
    have h2 : p / q + 1 ≤ 2 ^ (log2 (p / q) + 1) := by
      rcases Nat.eq_zero_or_pos (p / q) with h0 | hpos
      · rw [h0]; exact Nat.one_le_two_pow
      · exact (log2_spec _ hpos hcap).2
    have h3 : 2 ^ (log2 (p / q) + 1) ≤ 2 ^ (53 + (log2 (p / q) - 52)) :=
      Nat.pow_le_pow_right (by decide) (by omega)
    calc p ≤ q * (p / q + 1) := h1.le
      _ ≤ q * 2 ^ (53 + (log2 (p / q) - 52)) := Nat.mul_le_mul_left _ (h2.trans h3)
      _ = 2 ^ 53 * (q * 2 ^ (log2 (p / q) - 52)) := by rw [pow_add]; ring
  · intro hs
    have hpos : 0 < p / q := by
      by_contra h0
      have : p / q = 0 := Nat.eq_zero_of_not_pos h0
      rw [this, log2_zero] at hs
      omega
    have h1 := (log2_spec _ hpos hcap).1
    have h2 : log2 (p / q) = 52 + (log2 (p / q) - 52) := by omega
    calc 2 ^ 52 * (q * 2 ^ (log2 (p / q) - 52))
        = 2 ^ (52 + (log2 (p / q) - 52)) * q := by rw [pow_add]; ring
      _ = 2 ^ log2 (p / q) * q := by rw [← h2]
      _ ≤ p / q * q := Nat.mul_le_mul_right _ h1
      _ ≤ p := Nat.div_mul_le_self p q

/-- The magnitude of a finite result of `round` is the rounded integer at the
quantum `2 ^ shift`. -/
theorem round_magnitude (sign : Bool) (p q : Nat) (hq : 0 < q)
    (hfin : (round sign p q).isFinite = true) :
    (round sign p q).magnitude
        = roundHalfEven p (q * 2 ^ (log2 (p / q) - 52)) * 2 ^ (log2 (p / q) - 52) ∧
      (round sign p q).sign = sign ∧
      (0 < log2 (p / q) - 52 → 2 ^ 52 * (q * 2 ^ (log2 (p / q) - 52)) ≤ p) := by
  obtain ⟨hbits, hsign, hex, hfr⟩ := round_of_isFinite sign p q hfin
  have hcap : log2 (p / q) < 4095 := by
    have : (log2 (p / q) - 52) * 2 ^ 52 < 2047 * 2 ^ 52 := by omega
    have := Nat.lt_of_mul_lt_mul_right this
    omega
  obtain ⟨hb1, hb2⟩ := round_bounds p q hq hcap
  have hden : 0 < q * 2 ^ (log2 (p / q) - 52) := Nat.mul_pos hq (by positivity)
  refine ⟨magnitude_of_bits _ _ _ hex hfr ?_ ?_, hsign, hb2⟩
  · exact roundHalfEven_le _ _ _ hden hb1
  · intro hs
    exact le_roundHalfEven _ _ _ hden (hb2 hs)

/-- No binary64 magnitude is nearer to `p / q` than the magnitude of a finite
result of `round`. -/
theorem round_nearest_magnitude (sign : Bool) (p q : Nat) (hq : 0 < q)
    (hfin : (round sign p q).isFinite = true) (d : JSNumber) :
    |((round sign p q).magnitude : Int) * q - p| ≤ |(d.magnitude : Int) * q - p| := by
  obtain ⟨hmag, -, hlow⟩ := round_magnitude sign p q hq hfin
  have hden : 0 < q * 2 ^ (log2 (p / q) - 52) := Nat.mul_pos hq (by positivity)
  rw [hmag]
  generalize hs : log2 (p / q) - 52 = s at *
  have hR : ((roundHalfEven p (q * 2 ^ s) * 2 ^ s : Nat) : Int) * q - p
      = (roundHalfEven p (q * 2 ^ s) : Int) * ((q * 2 ^ s : Nat) : Int) - p := by
    push_cast; ring
  rw [hR]
  by_cases hgrid : 2 ^ (52 + s) ≤ d.magnitude
  · obtain ⟨k, hk⟩ := magnitude_grid d s hgrid
    have hK : (d.magnitude : Int) * q - p = (k : Int) * ((q * 2 ^ s : Nat) : Int) - p := by
      rw [hk]; push_cast; ring
    rw [hK]
    exact roundHalfEven_nearest p (q * 2 ^ s) hden k
  · rcases Nat.eq_zero_or_pos s with hs0 | hspos
    · subst hs0
      have h := roundHalfEven_nearest p (q * 2 ^ 0) hden d.magnitude
      simpa using h
    · have hlow' := hlow hspos
      have hlt : d.magnitude < 2 ^ (52 + s) := Nat.lt_of_not_le hgrid
      have h1 : d.magnitude * q < 2 ^ 52 * (q * 2 ^ s) := by
        calc d.magnitude * q < 2 ^ (52 + s) * q := Nat.mul_lt_mul_of_pos_right hlt hq
          _ = 2 ^ 52 * (q * 2 ^ s) := by rw [pow_add]; ring
      have h2 := roundHalfEven_nearest p (q * 2 ^ s) hden ((2 ^ 52 : Nat) : Int)
      have h3 : ((2 ^ 52 : Nat) : Int) * ((q * 2 ^ s : Nat) : Int) ≤ (p : Int) := by
        exact_mod_cast hlow'
      have h4 : (d.magnitude : Int) * q < ((2 ^ 52 : Nat) : Int) * ((q * 2 ^ s : Nat) : Int) := by
        exact_mod_cast h1
      have h5 : |((2 ^ 52 : Nat) : Int) * ((q * 2 ^ s : Nat) : Int) - p|
          = p - ((2 ^ 52 : Nat) : Int) * ((q * 2 ^ s : Nat) : Int) := by
        rw [abs_of_nonpos (by linarith)]; ring
      rw [h5] at h2
      rw [abs_of_nonpos (by linarith : (d.magnitude : Int) * q - p ≤ 0)]
      linarith

theorem not_isNaN_of_isFinite (x : JSNumber) (h : x.isFinite = true) : x.isNaN = false := by
  simp only [isFinite, bne_iff_ne, ne_eq] at h
  simp [isNaN, h]

theorem abs_signed_le (A B P : Int) (hB : 0 ≤ B) (hP : 0 ≤ P)
    (h1 : |A - P| ≤ |B - P|) (h0 : |A - P| ≤ P) :
    |A - P| ≤ |-B - P| ∧ |-A - -P| ≤ |B - -P| ∧ |-A - -P| ≤ |-B - -P| := by
  have e1 : |-A - -P| = |A - P| := by rw [← abs_neg]; congr 1; ring
  have e2 : |-B - -P| = |B - P| := by rw [← abs_neg]; congr 1; ring
  have e3 : |-B - P| = B + P := by rw [abs_of_nonpos (by linarith)]; ring
  have e4 : |B - -P| = B + P := by rw [abs_of_nonneg (by linarith)]; ring
  rw [e1, e2, e3, e4]
  exact ⟨by linarith, by linarith, h1⟩

/-- With its sign, a finite result of `round` is as near to the signed `p / q` as
any binary64 value. -/
theorem round_nearest (sign : Bool) (p q : Nat) (hq : 0 < q)
    (hfin : (round sign p q).isFinite = true) (d : JSNumber) :
    |(round sign p q).toUnits * q - (if sign = true then -(p : Int) else p)|
      ≤ |d.toUnits * q - (if sign = true then -(p : Int) else p)| := by
  have hd := round_nearest_magnitude sign p q hq hfin d
  have h0 := round_nearest_magnitude sign p q hq hfin ⟨false, ⟨0, by decide⟩, ⟨0, by decide⟩⟩
  have hz : magnitude ⟨false, ⟨0, by decide⟩, ⟨0, by decide⟩⟩ = 0 := rfl
  rw [hz, Nat.cast_zero, zero_mul, zero_sub, abs_neg, abs_of_nonneg (Int.ofNat_nonneg p)] at h0
  have hsign := (round_magnitude sign p q hq hfin).2.1
  have hK : (0 : Int) ≤ (d.magnitude : Int) * q :=
    mul_nonneg (Int.ofNat_nonneg _) (Int.ofNat_nonneg _)
  have hp : (0 : Int) ≤ p := Int.ofNat_nonneg p
  have hu : (round sign p q).toUnits * q
      = if sign = true then -(((round sign p q).magnitude : Int) * q)
        else ((round sign p q).magnitude : Int) * q := by
    unfold toUnits
    rw [hsign]
    split <;> simp
  have hdu : d.toUnits * q
      = if d.sign = true then -((d.magnitude : Int) * q) else (d.magnitude : Int) * q := by
    unfold toUnits
    split <;> simp
  rw [hu, hdu]
  generalize ((round sign p q).magnitude : Int) * q = A at *
  generalize (d.magnitude : Int) * q = B at *
  generalize (p : Int) = P at *
  obtain ⟨g1, g2, g3⟩ := abs_signed_le A B P hK hp hd h0
  cases sign <;> cases d.sign <;> simp only [Bool.false_eq_true, if_false, if_true]
  · exact hd
  · exact g1
  · exact g2
  · exact g3

theorem toRat_sub_div (x : JSNumber) (n : Int) :
    x.toRat - (n : ℚ) / 2 ^ 1074 = ((x.toUnits - n : Int) : ℚ) / 2 ^ 1074 := by
  unfold toRat
  push_cast
  ring

theorem abs_div_le_abs_div (x y : Int) (c : ℚ) (h : |x| ≤ |y|) :
    |(x : ℚ) / c| ≤ |(y : ℚ) / c| := by
  rw [abs_div, abs_div]
  apply div_le_div_of_nonneg_right _ (abs_nonneg c)
  exact_mod_cast h

/-- The difference of two finite numbers, when it is finite, is as near to the
exact difference of their values as any finite number. -/
theorem sub_isNearest (a b : JSNumber) (ha : a.isFinite = true) (hb : b.isFinite = true)
    (hfin : (a.sub b).isFinite = true) : IsNearest (a.toRat - b.toRat) (a.sub b) := by
  intro d _
  have hv : a.toRat - b.toRat = ((a.toUnits - b.toUnits : Int) : ℚ) / 2 ^ 1074 := by
    unfold toRat; push_cast; ring
  rw [hv, toRat_sub_div, toRat_sub_div]
  apply abs_div_le_abs_div
  unfold sub at hfin ⊢
  simp only [not_isNaN_of_isFinite a ha, not_isNaN_of_isFinite b hb, ha, hb, Bool.or_self,
    Bool.false_eq_true, if_false, Bool.not_true] at hfin ⊢
  split
  · rename_i h0
    rw [h0]
    simp [toUnits, magnitude]
  · rename_i hne
    rw [if_neg hne] at hfin
    have h := round_nearest _ _ 1 (by decide) hfin d
    have hD : (if decide (a.toUnits - b.toUnits < 0) = true
        then -(((a.toUnits - b.toUnits).natAbs : Nat) : Int)
        else (((a.toUnits - b.toUnits).natAbs : Nat) : Int)) = a.toUnits - b.toUnits := by
      split
      · rename_i hneg
        have := of_decide_eq_true hneg
        omega
      · rename_i hpos
        have : ¬ a.toUnits - b.toUnits < 0 := fun hneg => hpos (decide_eq_true hneg)
        omega
    rw [hD] at h
    simpa using h

theorem magnitude_lt (x : JSNumber) (h : x.isFinite = true) : x.magnitude < 2 ^ 2098 := by
  have hex : x.exponent.val < 2047 := by
    have := x.exponent.isLt
    simp only [isFinite, bne_iff_ne, ne_eq] at h
    omega
  have hf : x.fraction.val < 2 ^ 52 := x.fraction.isLt
  unfold magnitude
  split
  · calc x.fraction.val < 2 ^ 52 := hf
      _ ≤ 2 ^ 2098 := Nat.pow_le_pow_right (by decide) (by decide)
  · calc (2 ^ 52 + x.fraction.val) * 2 ^ (x.exponent.val - 1)
        < 2 ^ 53 * 2 ^ (x.exponent.val - 1) :=
          Nat.mul_lt_mul_of_pos_right (by omega) (by positivity)
      _ = 2 ^ (53 + (x.exponent.val - 1)) := by rw [pow_add]
      _ ≤ 2 ^ 2098 := Nat.pow_le_pow_right (by decide) (by omega)

theorem log2_lt_of_lt (n m : Nat) (hm : m ≤ 4095) (hpos : 0 < m) (h : n < 2 ^ m) :
    log2 n < m := by
  rcases Nat.eq_zero_or_pos n with h0 | hn
  · rw [h0, log2_zero]; exact hpos
  · by_contra hge
    have hcap : log2 n < 4095 ∨ log2 n = 4095 := by
      have := log2_le n; omega
    rcases hcap with hcap | hcap
    · have h1 := (log2_spec n hn hcap).1
      have h2 : 2 ^ m ≤ 2 ^ log2 n := Nat.pow_le_pow_right (by decide) (by omega)
      omega
    · unfold log2 at hcap
      have h3 : n < 2 ^ 2 ^ 12 := by
        calc n < 2 ^ m := h
          _ ≤ 2 ^ 2 ^ 12 := Nat.pow_le_pow_right (by decide) (by norm_num; omega)
      have h4 := (log2Aux_spec 12 n).1 h3 hn
      rw [hcap] at h4
      have h5 : 2 ^ m ≤ 2 ^ 4095 := Nat.pow_le_pow_right (by decide) hm
      omega

theorem half_isFinite (a : JSNumber) (ha : a.isFinite = true) : a.half.isFinite = true := by
  unfold half
  rw [if_pos ha]
  have hmag := magnitude_lt a ha
  have hdiv : a.magnitude / 2 < 2 ^ 2097 := by
    rw [Nat.div_lt_iff_lt_mul (by decide)]
    calc a.magnitude < 2 ^ 2098 := hmag
      _ = 2 ^ 2097 * 2 := by rw [← pow_succ]
  have hlog := log2_lt_of_lt _ 2097 (by decide) (by decide) hdiv
  have hb := (round_bounds a.magnitude 2 (by decide) (by omega)).1
  have hM := roundHalfEven_le _ _ _ (Nat.mul_pos (by decide) (by positivity)) hb
  unfold round
  simp only
  rw [dif_pos (by omega)]
  simp only [isFinite, bne_iff_ne, ne_eq]
  omega

/-- Half of a finite number is finite and as near to the exact half of its value
as any finite number. -/
theorem half_isNearest (a : JSNumber) (ha : a.isFinite = true) :
    IsNearest (a.toRat / 2) a.half := by
  intro d _
  have hfin := half_isFinite a ha
  have hv : a.toRat / 2 = ((a.toUnits : Int) : ℚ) / (2 * 2 ^ 1074) := by
    unfold toRat; rw [div_div, mul_comm]
  have hx : ∀ x : JSNumber, x.toRat - a.toRat / 2
      = ((x.toUnits * 2 - a.toUnits : Int) : ℚ) / (2 * 2 ^ 1074) := by
    intro x
    unfold toRat
    push_cast
    generalize hc : (2 : ℚ) ^ 1074 = c
    have hc0 : c ≠ 0 := by rw [← hc]; positivity
    field_simp
    ring
  rw [hx, hx]
  apply abs_div_le_abs_div
  unfold half at hfin ⊢
  rw [if_pos ha] at hfin ⊢
  have h := round_nearest a.sign a.magnitude 2 (by decide) hfin d
  have hD : (if a.sign = true then -(a.magnitude : Int) else (a.magnitude : Int))
      = a.toUnits := rfl
  rw [hD] at h
  exact_mod_cast h

/-- The larger of two finite numbers is one of them and has the larger value. -/
theorem max_spec (a b : JSNumber) (ha : a.isFinite = true) (hb : b.isFinite = true) :
    (JSNumber.max a b = a ∨ JSNumber.max a b = b) ∧
      (JSNumber.max a b).toRat = Max.max a.toRat b.toRat := by
  have hu : (JSNumber.max a b = a ∨ JSNumber.max a b = b) ∧
      (JSNumber.max a b).toUnits = Max.max a.toUnits b.toUnits := by
    unfold JSNumber.max
    simp only [not_isNaN_of_isFinite a ha, not_isNaN_of_isFinite b hb, Bool.or_self,
      Bool.false_eq_true, if_false]
    split
    · rename_i h; exact ⟨Or.inr rfl, by omega⟩
    · split
      · rename_i h1 h2; exact ⟨Or.inl rfl, by omega⟩
      · split
        · rename_i h1 h2 h3; exact ⟨Or.inr rfl, by omega⟩
        · rename_i h1 h2 h3; exact ⟨Or.inl rfl, by omega⟩
  refine ⟨hu.1, ?_⟩
  unfold toRat
  rw [hu.2, max_div_div_right (by positivity), Int.cast_max]

/-- The conversion to a string at the edges of its forms: exponent form below
`1e-6` and from `1e21`, positional form between, the shortest digits that read
back as the number, and the special values. -/
theorem toJSString_samples :
    (ofDecimal 1 7).toJSString = "1e-7" ∧
      (ofDecimal 1 6).toJSString = "0.000001" ∧
      (ofDecimal 1000000000000000000000 0).toJSString = "1e+21" ∧
      (ofDecimal 123456789012345678901 0).toJSString = "123456789012345680000" ∧
      (ofDecimal 1 1).toJSString = "0.1" ∧
      ((ofDecimal 3 1).sub (ofDecimal 1 1)).toJSString = "0.19999999999999998" ∧
      (ofDecimal (-5) 1).toJSString = "-0.5" ∧
      (ofDecimal 105 2).toJSString = "1.05" ∧
      (JSNumber.mk false ⟨0, by decide⟩ ⟨1, by decide⟩).toJSString = "5e-324" ∧
      (JSNumber.mk false ⟨2046, by decide⟩ ⟨2 ^ 52 - 1, by decide⟩).toJSString
        = "1.7976931348623157e+308" ∧
      (JSNumber.mk true ⟨0, by decide⟩ ⟨0, by decide⟩).toJSString = "0" ∧
      nan.toJSString = "NaN" ∧ (infinity true).toJSString = "-Infinity" := by
  decide

theorem toRat_of_magnitude (x : JSNumber) (n : Nat) (hs : x.sign = false)
    (hm : x.magnitude = n * 2 ^ 1074) : x.toRat = n := by
  have hc : (2 : ℚ) ^ 1074 ≠ 0 := pow_ne_zero _ (by norm_num)
  rw [toRat, toUnits, hs, if_neg Bool.false_ne_true, hm, Int.cast_natCast, Nat.cast_mul,
    Nat.cast_pow, Nat.cast_ofNat]
  exact mul_div_cancel_right₀ _ hc

/-- The rational value at some numbers: the literals have their usual values, the
unit `2 ^ -1074` is the smallest subnormal number. -/
theorem toRat_samples :
    (ofDecimal 1 0).toRat = 1 ∧ (ofDecimal 100 0).toRat = 100 ∧
      (ofDecimal 4096 0).toRat = 4096 ∧
      (JSNumber.mk false ⟨0, by decide⟩ ⟨1, by decide⟩).toRat = 1 / 2 ^ 1074 := by
  refine ⟨?_, ?_, ?_, ?_⟩
  · exact_mod_cast toRat_of_magnitude (ofDecimal 1 0) 1 (by decide) (by decide)
  · exact_mod_cast toRat_of_magnitude (ofDecimal 100 0) 100 (by decide) (by decide)
  · exact_mod_cast toRat_of_magnitude (ofDecimal 4096 0) 4096 (by decide) (by decide)
  · have hm : (JSNumber.mk false ⟨0, by decide⟩ ⟨1, by decide⟩).magnitude = 1 := by decide
    rw [toRat, toUnits, if_neg Bool.false_ne_true, hm, Int.cast_natCast, Nat.cast_one]

end JSNumber

/-! ## Lists -/


theorem modify_modify_same {α : Type} (f g : α → α) (i : Nat) (l : List α) :
    (l.modify g i).modify f i = l.modify (fun a => f (g a)) i := by
  apply List.ext_getElem?
  intro j
  simp only [List.getElem?_modify]
  cases l[j]? with
  | none => rfl
  | some a => by_cases h : i = j <;> simp [h]

theorem map_modify_invariant {α β : Type} (h : α → β) (f : α → α) (i : Nat) (l : List α)
    (hf : ∀ a, h (f a) = h a) : (l.modify f i).map h = l.map h := by
  apply List.ext_getElem?
  intro j
  simp only [List.getElem?_map, List.getElem?_modify]
  cases l[j]? with
  | none => rfl
  | some a => by_cases hij : i = j <;> simp [hij, hf]

theorem count_filter_range (p : Nat → Bool) (n j : Nat) :
    List.count j ((List.range n).filter p) = if j < n ∧ p j = true then 1 else 0 := by
  have hnd : ((List.range n).filter p).Nodup := (List.nodup_range n).filter _
  rw [List.count_eq_of_nodup hnd]
  simp [List.mem_filter, List.mem_range]

theorem foldl_modify_getElem? (g : Nat → Element → Element) (body : Nat → Document → Document)
    (hbody : ∀ i d, (body i d).elements = d.elements.modify (g i) i) (j : Nat) :
    ∀ (nodes : List Nat) (d : Document),
      (forEach nodes body d).elements[j]? = (d.elements[j]?).map ((g j)^[nodes.count j]) := by
  intro nodes
  induction nodes with
  | nil => intro d; simp [forEach]
  | cons i rest ih =>
    intro d
    have h := ih (body i d)
    simp only [forEach, List.foldl_cons] at h ⊢
    rw [h, hbody, List.getElem?_modify]
    cases hj : d.elements[j]? with
    | none => simp
    | some a =>
      by_cases hij : i = j
      · subst hij; simp [List.count_cons_self, Function.iterate_succ_apply]
      · simp [hij, List.count_cons_of_ne (Ne.symm hij)]

theorem forEach_query_getElem? (sel : List SimpleSelector) (g : Nat → Element → Element)
    (body : Nat → Document → Document)
    (hbody : ∀ i d, (body i d).elements = d.elements.modify (g i) i) (doc : Document) (j : Nat) :
    (forEach (querySelectorAll sel doc) body doc).elements[j]? =
      (doc.elements[j]?).map (fun e => if selects sel e = true then g j e else e) := by
  rw [foldl_modify_getElem? g body hbody, querySelectorAll, count_filter_range]
  cases hj : doc.elements[j]? with
  | none => rfl
  | some e =>
    have hlt : j < doc.elements.length := by
      by_contra hge
      rw [List.getElem?_eq_none (by omega)] at hj
      exact Option.noConfusion hj
    by_cases hs : selects sel e = true <;> simp [hj, hlt, hs]

theorem modify_congr_at {α : Type} (f g : α → α) (i : Nat) (l : List α)
    (h : ∀ a, l[i]? = some a → f a = g a) : l.modify f i = l.modify g i := by
  apply List.ext_getElem?
  intro j
  simp only [List.getElem?_modify]
  cases hj : l[j]? with
  | none => rfl
  | some a =>
    by_cases hij : i = j
    · subst hij; simp [h a hj]
    · simp [hij]

theorem applyButtonAnimations_getElem? (doc : Document) (j : Nat) :
    (applyButtonAnimations doc).elements[j]? =
      (doc.elements[j]?).map (fun e => if selects buttonSelector e = true then bindButton j e else e) := by
  unfold applyButtonAnimations
  apply forEach_query_getElem? buttonSelector bindButton
  intro i d
  simp only [addEventListener, modifyElement, modify_modify_same, getComputedStyle]
  apply modify_congr_at
  intro a ha
  simp [ha, Element.addListener, Handler.isClosure, bindButton, buttonListeners]


theorem setStyle_getElem? (i j : Nat) (f : Style → Style) (d : Document) :
    (setStyle i f d).elements[j]? =
      (d.elements[j]?).map (fun e => if i = j then { e with style := f e.style } else e) := by
  simp only [setStyle, modifyElement, List.getElem?_modify]
  rfl

theorem setStyle_listenersOf (i : Nat) (f : Style → Style) (d : Document) :
    listenersOf (setStyle i f d) = listenersOf d := by
  simp only [listenersOf, setStyle, modifyElement]
  exact map_modify_invariant _ _ _ _ (fun _ => rfl)

theorem modifyNode_listenersOf (uid : Nat) (f : Node → Node) (d : Document) :
    listenersOf (modifyNode uid f d) = listenersOf d := by
  simp [listenersOf, modifyNode, Function.comp_def]

theorem appendChild_listenersOf (i : Nat) (n : Node) (d : Document) :
    listenersOf (appendChild i n d) = listenersOf d := by
  simp only [listenersOf, appendChild, modifyElement]
  exact map_modify_invariant _ _ _ _ (fun _ => rfl)

theorem createRippleEffect_listenersOf (event : Event) (t : Nat) (d : Document) :
    listenersOf (createRippleEffect event t d) = listenersOf d := by
  simp only [createRippleEffect, createElement, setTimeout]
  show listenersOf (modifyNode _ _ (modifyNode _ _ (modifyNode _ _ (modifyNode _ _
    (appendChild _ _ _))))) = _
  rw [modifyNode_listenersOf, modifyNode_listenersOf, modifyNode_listenersOf,
    modifyNode_listenersOf, appendChild_listenersOf]
  rfl

theorem Handler.run_listenersOf (cfg : Config) (event : Event) (t : Nat) (h : Handler)
    (d : Document) : listenersOf (h.run cfg event t d) = listenersOf d := by
  cases h <;> simp only [Handler.run, setStyle_listenersOf, createRippleEffect_listenersOf]

theorem foldl_run_listenersOf (cfg : Config) (event : Event) (t : Nat) (ls : List Listener) :
    ∀ d : Document,
      listenersOf (ls.foldl (fun d l => l.handler.run cfg event t d) d) = listenersOf d := by
  induction ls with
  | nil => intro d; rfl
  | cons l rest ih => intro d; rw [List.foldl_cons, ih, Handler.run_listenersOf]

theorem dispatchEvent_listenersOf (cfg : Config) (event : Event) (t : Nat) (d : Document) :
    listenersOf (dispatchEvent cfg event t d) = listenersOf d := by
  unfold dispatchEvent
  split
  · rfl
  · exact foldl_run_listenersOf cfg event t _ d

theorem dispatchEvents_listenersOf (cfg : Config) (t : Nat) (events : List Event) :
    ∀ d : Document, listenersOf (dispatchEvents cfg events t d) = listenersOf d := by
  induction events with
  | nil => intro d; rfl
  | cons ev rest ih =>
    intro d
    simp only [dispatchEvents, List.foldl_cons] at ih ⊢
    rw [ih, dispatchEvent_listenersOf]

theorem getElem?_of_listenersOf {d d' : Document} (h : listenersOf d' = listenersOf d)
    {i : Nat} {e : Element} (he : d.elements[i]? = some e) :
    ∃ e', d'.elements[i]? = some e' ∧ e'.listeners = e.listeners := by
  have hi : (listenersOf d')[i]? = (listenersOf d)[i]? := by rw [h]
  simp only [listenersOf, List.getElem?_map, he, Option.map_some'] at hi
  cases h' : d'.elements[i]? with
  | none => simp [h'] at hi
  | some e' => exact ⟨e', rfl, by simpa [h'] using hi⟩

theorem dispatchEvent_snoc (cfg : Config) (event : Event) (i : Nat) (d : Document)
    (e : Element) (ls : List Listener) (l : Listener) (he : d.elements[i]? = some e)
    (hl : e.listeners.filter (fun l => l.type = event.type) = ls ++ [l]) :
    ∃ d' e', dispatchEvent cfg event i d = l.handler.run cfg event i d' ∧
      d'.elements[i]? = some e' ∧ e'.listeners = e.listeners := by
  refine ⟨ls.foldl (fun d l => l.handler.run cfg event i d) d, ?_⟩
  obtain ⟨e', he', hle⟩ := getElem?_of_listenersOf (foldl_run_listenersOf cfg event i ls d) he
  refine ⟨e', ?_, he', hle⟩
  simp only [dispatchEvent, he, hl, List.foldl_append, List.foldl_cons, List.foldl_nil]


theorem applyButtonAnimations_bound {doc : Document} {i : Nat} {e : Element}
    (he : doc.elements[i]? = some e) (hb : selects buttonSelector e = true) :
    (applyButtonAnimations doc).elements[i]? = some (bindButton i e) := by
  rw [applyButtonAnimations_getElem?, he]
  simp [hb]

/-- After the button binder, an event of type `ty` on the button ends with the
listener `l` of the binder: the dispatch is the run of `l` on a state in which
the element still carries the same listeners. -/
theorem dispatch_button_last (cfg : Config) (event : Event) (i : Nat) (d : Document)
    (e e1 : Element) (l : Listener) (he1 : d.elements[i]? = some e1)
    (hl1 : e1.listeners = (bindButton i e).listeners)
    (hl : (buttonListeners i e.computed.boxShadow).filter (fun l => l.type = event.type) = [l]) :
    ∃ d' e', dispatchEvent cfg event i d = l.handler.run cfg event i d' ∧
      d'.elements[i]? = some e' ∧ e'.listeners = (bindButton i e).listeners := by
  have hf : e1.listeners.filter (fun l => l.type = event.type) =
      e.listeners.filter (fun l => l.type = event.type) ++ [l] := by
    rw [hl1, bindButton, List.filter_append, hl]
  obtain ⟨d', e', hrun, he', hle⟩ := dispatchEvent_snoc cfg event i d e1 _ l he1 hf
  exact ⟨d', e', hrun, he', hle.trans hl1⟩

theorem run_buttonMouseenter (cfg : Config) (event : Event) (i : Nat) (d : Document)
    (e : Element) (he : d.elements[i]? = some e) :
    transformOf ((Handler.buttonMouseenter i).run cfg event i d) i
        = some ("scale(" ++ cfg.buttonHoverScale.toJSString ++ ")") ∧
      boxShadowOf ((Handler.buttonMouseenter i).run cfg event i d) i
        = some cfg.hoverElevation := by
  simp [transformOf, boxShadowOf, Handler.run, setStyle_getElem?, he]

theorem run_buttonMouseleave (cfg : Config) (event : Event) (i : Nat) (s : String)
    (d : Document) (e : Element) (he : d.elements[i]? = some e) :
    transformOf ((Handler.buttonMouseleave i s).run cfg event i d) i = some "scale(1)" ∧
      boxShadowOf ((Handler.buttonMouseleave i s).run cfg event i d) i = some s := by
  simp [transformOf, boxShadowOf, Handler.run, setStyle_getElem?, he]

theorem run_buttonMousedown (cfg : Config) (event : Event) (i : Nat) (d : Document)
    (e : Element) (he : d.elements[i]? = some e) :
    transformOf ((Handler.buttonMousedown i).run cfg event i d) i
      = some ("scale(" ++ cfg.buttonPressScale.toJSString ++ ")") := by
  simp [transformOf, Handler.run, setStyle_getElem?, he]

theorem run_buttonMouseup (cfg : Config) (event : Event) (i : Nat) (d : Document)
    (e : Element) (he : d.elements[i]? = some e) :
    transformOf ((Handler.buttonMouseup i).run cfg event i d) i
      = some ("scale(" ++ cfg.buttonHoverScale.toJSString ++ ")") := by
  simp [transformOf, Handler.run, setStyle_getElem?, he]

theorem run_cardMouseenter (cfg : Config) (event : Event) (i : Nat) (d : Document)
    (e : Element) (he : d.elements[i]? = some e) :
    transformOf ((Handler.cardMouseenter i).run cfg event i d) i
        = some cfg.cardHoverTransform ∧
      boxShadowOf ((Handler.cardMouseenter i).run cfg event i d) i
        = some cfg.hoverElevation := by
  simp [transformOf, boxShadowOf, Handler.run, setStyle_getElem?, he]

theorem run_cardMouseleave (cfg : Config) (event : Event) (i : Nat) (s t : String)
    (d : Document) (e : Element) (he : d.elements[i]? = some e) :
    transformOf ((Handler.cardMouseleave i s t).run cfg event i d) i = some t ∧
      boxShadowOf ((Handler.cardMouseleave i s t).run cfg event i d) i = some s := by
  simp [transformOf, boxShadowOf, Handler.run, setStyle_getElem?, he]

theorem setStyle_shadowsOf (i : Nat) (f : Style → Style) (d : Document)
    (hf : ∀ s, (f s).boxShadow = s.boxShadow) : shadowsOf (setStyle i f d) = shadowsOf d := by
  simp only [shadowsOf, setStyle, modifyElement]
  exact map_modify_invariant _ _ _ _ (fun e => hf e.style)

theorem boxShadowOf_eq_shadowsOf (d : Document) (i : Nat) :
    boxShadowOf d i = (shadowsOf d)[i]? := by
  simp [boxShadowOf, shadowsOf]

theorem run_press_shadowsOf (cfg : Config) (event : Event) (t : Nat) (h : Handler)
    (d : Document) (hty : h.eventType = .mousedown ∨ h.eventType = .mouseup) :
    shadowsOf (h.run cfg event t d) = shadowsOf d := by
  cases h <;> simp [Handler.eventType] at hty <;>
    simp [Handler.run, setStyle_shadowsOf]

theorem foldl_press_shadowsOf (cfg : Config) (event : Event) (t : Nat) (ls : List Listener)
    (hls : ∀ l ∈ ls, l.handler.eventType = .mousedown ∨ l.handler.eventType = .mouseup) :
    ∀ d : Document,
      shadowsOf (ls.foldl (fun d l => l.handler.run cfg event t d) d) = shadowsOf d := by
  induction ls with
  | nil => intro d; rfl
  | cons l rest ih =>
    intro d
    rw [List.foldl_cons, ih (fun l hl => hls l (List.mem_cons_of_mem _ hl)),
      run_press_shadowsOf cfg event t l.handler d (hls l (List.mem_cons_self _ _))]

theorem dispatch_press_shadowsOf (cfg : Config) (event : Event) (i : Nat) (d : Document)
    (e : Element) (he : d.elements[i]? = some e)
    (hreg : ∀ l ∈ e.listeners, l.type = l.handler.eventType)
    (hty : event.type = .mousedown ∨ event.type = .mouseup) :
    shadowsOf (dispatchEvent cfg event i d) = shadowsOf d := by
  simp only [dispatchEvent, he]
  apply foldl_press_shadowsOf
  intro l hl
  rw [List.mem_filter] at hl
  have h1 : l.type = event.type := by simpa using hl.2
  rw [← hreg l hl.1, h1]
  exact hty

theorem dispatchEvents_press_shadowsOf (cfg : Config) (i : Nat) (presses : List Event)
    (hp : ∀ event ∈ presses, event.type = .mousedown ∨ event.type = .mouseup) :
    ∀ (d : Document) (e : Element), d.elements[i]? = some e →
      (∀ l ∈ e.listeners, l.type = l.handler.eventType) →
      shadowsOf (dispatchEvents cfg presses i d) = shadowsOf d := by
  induction presses with
  | nil => intro d e _ _; rfl
  | cons event rest ih =>
    intro d e he hreg
    obtain ⟨e1, he1, hl1⟩ := getElem?_of_listenersOf (dispatchEvent_listenersOf cfg event i d) he
    have h := ih (fun ev hev => hp ev (List.mem_cons_of_mem _ hev))
      (dispatchEvent cfg event i d) e1 he1 (by rw [hl1]; exact hreg)
    simp only [dispatchEvents, List.foldl_cons] at h ⊢
    rw [h, dispatch_press_shadowsOf cfg event i d e he hreg (hp event (List.mem_cons_self _ _))]

theorem bindButton_registered (i : Nat) (e : Element)
    (hreg : ∀ l ∈ e.listeners, l.type = l.handler.eventType) :
    ∀ l ∈ (bindButton i e).listeners, l.type = l.handler.eventType := by
  intro l hl
  simp only [bindButton, buttonListeners, List.mem_append, List.mem_cons,
    List.mem_singleton, List.not_mem_nil, or_false] at hl
  rcases hl with hl | hl | hl | hl | hl
  · exact hreg l hl
  all_goals subst hl; rfl

theorem applyCardAnimations_getElem? (doc : Document) (j : Nat) :
    (applyCardAnimations doc).elements[j]? =
      (doc.elements[j]?).map (fun e => if selects cardSelector e = true then bindCard j e else e) := by
  unfold applyCardAnimations
  apply forEach_query_getElem? cardSelector bindCard
  intro i d
  simp only [addEventListener, modifyElement, modify_modify_same, getComputedStyle]
  apply modify_congr_at
  intro a ha
  simp [ha, Element.addListener, Handler.isClosure, bindCard, cardListeners]

theorem applyCardAnimations_bound {doc : Document} {i : Nat} {e : Element}
    (he : doc.elements[i]? = some e) (hc : selects cardSelector e = true) :
    (applyCardAnimations doc).elements[i]? = some (bindCard i e) := by
  rw [applyCardAnimations_getElem?, he]
  simp [hc]

/-- After the card binder, an event on the card ends with the listener `l` of the
binder: the dispatch is the run of `l` on a state that still has the element. -/
theorem dispatch_card_last (cfg : Config) (event : Event) (i : Nat) (d : Document)
    (e e1 : Element) (l : Listener) (he1 : d.elements[i]? = some e1)
    (hl1 : e1.listeners = (bindCard i e).listeners)
    (hl : (cardListeners i e.computed.boxShadow e.computed.transform).filter
      (fun l => l.type = event.type) = [l]) :
    ∃ d' e', dispatchEvent cfg event i d = l.handler.run cfg event i d' ∧
      d'.elements[i]? = some e' := by
  have hf : e1.listeners.filter (fun l => l.type = event.type) =
      e.listeners.filter (fun l => l.type = event.type) ++ [l] := by
    rw [hl1, bindCard, List.filter_append, hl]
  obtain ⟨d', e', hrun, he', -⟩ := dispatchEvent_snoc cfg event i d e1 _ l he1 hf
  exact ⟨d', e', hrun, he'⟩

theorem selects_bindButton (sel : List SimpleSelector) (i : Nat) (e : Element) :
    selects sel (bindButton i e) = selects sel e := by
  unfold selects
  congr 1
  funext s
  cases s <;> rfl

theorem listenerCount_bindButton (type : EventType) (i : Nat) (e : Element)
    (hty : type ∈ [EventType.mouseenter, .mouseleave, .mousedown, .mouseup]) :
    listenerCount type (bindButton i e) = listenerCount type e + 1 := by
  simp only [List.mem_cons, List.mem_singleton, List.not_mem_nil, or_false] at hty
  rcases hty with h | h | h | h <;> subst h <;>
    simp [listenerCount, bindButton, buttonListeners, List.filter_append]

theorem iterate_applyButtonAnimations_bound (k : Nat) {doc : Document} {i : Nat} {e : Element}
    (he : doc.elements[i]? = some e) (hb : selects buttonSelector e = true) :
    ∃ ek, (applyButtonAnimations^[k] doc).elements[i]? = some ek ∧
      selects buttonSelector ek = true ∧
      ∀ type ∈ [EventType.mouseenter, .mouseleave, .mousedown, .mouseup],
        listenerCount type ek = listenerCount type e + k := by
  induction k with
  | zero => exact ⟨e, he, hb, fun _ _ => rfl⟩
  | succ k ih =>
    obtain ⟨ek, hek, hbk, hcount⟩ := ih
    refine ⟨bindButton i ek, ?_, ?_, ?_⟩
    · rw [Function.iterate_succ_apply']
      exact applyButtonAnimations_bound hek hbk
    · rw [selects_bindButton]; exact hbk
    · intro type hty
      rw [listenerCount_bindButton type i ek hty, hcount type hty]
      omega

theorem modify_self {α : Type} (i : Nat) (l : List α) : l.modify (fun a => a) i = l := by
  apply List.ext_getElem?
  intro j
  simp only [List.getElem?_modify]
  cases l[j]? <;> simp

theorem attributeOf_setStyle (i j : Nat) (f : Style → Style) (text : String) (name : String)
    (d : Document) :
    attributeOf (setStyle i f (appendStyle text d)) j name = attributeOf d j name := by
  simp only [attributeOf, setStyle_getElem?, appendStyle]
  cases d.elements[j]? with
  | none => rfl
  | some e => by_cases hij : i = j <;> simp [hij, Element.getAttribute]

theorem getAttribute_of_attributeOf {d : Document} {i : Nat} {e : Element} (name : String)
    (he : d.elements[i]? = some e) : e.getAttribute name = attributeOf d i name := by
  simp [attributeOf, he]

theorem applyStatusIndicatorEffects_getElem? (cfg : Config) (doc : Document) (j : Nat)
    (hcfg : cfg.statusIndicatorPulse = true) :
    (applyStatusIndicatorEffects cfg doc).elements[j]? =
      (doc.elements[j]?).map
        (fun e => if selects statusSelector e = true then bindIndicator e else e) := by
  simp only [applyStatusIndicatorEffects, hcfg, if_true]
  apply forEach_query_getElem? statusSelector (fun _ => bindIndicator)
  intro i d
  by_cases h1 : attributeOf d i "status" = some "connected"
  · have h2 : ¬ (some "connected" : Option String) = some "connecting" := by decide
    simp only [h1, if_true, attributeOf_setStyle, h2, if_false]
    simp only [setStyle, modifyElement, appendStyle]
    apply modify_congr_at
    intro a ha
    have hs := getAttribute_of_attributeOf "status" ha
    rw [h1] at hs
    simp only [Element.getAttribute] at hs
    simp [bindIndicator, Element.getAttribute, hs]
  · by_cases h2 : attributeOf d i "status" = some "connecting"
    · simp only [h1, if_false]
      simp only [h2, if_true]
      simp only [setStyle, modifyElement, appendStyle]
      apply modify_congr_at
      intro a ha
      have hs := getAttribute_of_attributeOf "status" ha
      rw [h2] at hs
      simp only [Element.getAttribute] at hs
      simp [bindIndicator, Element.getAttribute, hs]
    · simp only [h1, if_false]
      simp only [h2, if_false]
      rw [← modify_self i d.elements]
      conv_rhs => rw [modify_self]
      apply modify_congr_at
      intro a ha
      have hs := getAttribute_of_attributeOf "status" ha
      rw [← hs] at h1 h2
      simp only [Element.getAttribute] at h1 h2
      simp [bindIndicator, Element.getAttribute, h1, h2]

theorem map_update_snoc (u : Nat) (f : Node → Node) (cs : List Node) (r : Node)
    (hfresh : ∀ c ∈ cs, c.uid ≠ u) (hr : r.uid = u) :
    (cs ++ [r]).map (fun c => if c.uid = u then f c else c) = cs ++ [f r] := by
  rw [List.map_append]
  congr 1
  · conv_rhs => rw [← List.map_id cs]
    apply List.map_congr_left
    intro c hc
    simp [hfresh c hc]
  · simp [hr]

theorem modifyNode_getElem? (u : Nat) (f : Node → Node) (d : Document) (i : Nat) :
    (modifyNode u f d).elements[i]? = (d.elements[i]?).map (fun e =>
      { e with children := e.children.map (fun c => if c.uid = u then f c else c) }) := by
  simp [modifyNode]

theorem appendChild_getElem? (i : Nat) (n : Node) (d : Document) (e : Element)
    (he : d.elements[i]? = some e) :
    (appendChild i n d).elements[i]? = some { e with children := e.children ++ [n] } := by
  simp [appendChild, modifyElement, List.getElem?_modify, he]

theorem createRippleEffect_at (event : Event) (i : Nat) (doc : Document) (e : Element)
    (he : doc.elements[i]? = some e) (hfresh : ∀ c ∈ e.children, c.uid < doc.nextUid) :
    (createRippleEffect event i doc).elements[i]?
        = some { e with children := e.children ++ [rippleNode doc.nextUid e.rect event] } ∧
      (createRippleEffect event i doc).timers
        = doc.timers ++ [⟨.removeRipple doc.nextUid, 600⟩] ∧
      (createRippleEffect event i doc).nextUid = doc.nextUid + 1 := by
  have hne : ∀ c ∈ e.children, c.uid ≠ doc.nextUid := fun c hc => Nat.ne_of_lt (hfresh c hc)
  have happ := appendChild_getElem? i
    ⟨doc.nextUid, "span", ["ripple"], Style.unset⟩ { doc with nextUid := doc.nextUid + 1 } e he
  have hrect : getBoundingClientRect (appendChild i ⟨doc.nextUid, "span", ["ripple"],
      Style.unset⟩ { doc with nextUid := doc.nextUid + 1 }) i = e.rect := by
    simp [getBoundingClientRect, happ]
  refine ⟨?_, rfl, rfl⟩
  simp only [createRippleEffect, createElement, setTimeout, modifyNode_getElem?,
    List.nil_append, hrect, happ,
    Option.map_some']
  rw [map_update_snoc _ _ _ _ hne rfl, map_update_snoc _ _ _ _ hne rfl,
    map_update_snoc _ _ _ _ hne rfl, map_update_snoc _ _ _ _ hne rfl]
  rfl

theorem le_uid_of_mem_ripplesFrom (rect : Rect) (events : List Event) :
    ∀ (u : Nat) (c : Node), c ∈ ripplesFrom u rect events → u ≤ c.uid := by
  induction events with
  | nil => intro u c hc; simp [ripplesFrom] at hc
  | cons event rest ih =>
    intro u c hc
    simp only [ripplesFrom, List.mem_cons] at hc
    rcases hc with hc | hc
    · subst hc; exact Nat.le_refl _
    · exact Nat.le_of_succ_le (ih (u + 1) c hc)

theorem filter_ripplesFrom (rect : Rect) (events : List Event) :
    ∀ (u k : Nat), k < events.length →
      (ripplesFrom u rect events).filter (fun c => c.uid ≠ u + k)
        = (ripplesFrom u rect events).eraseIdx k := by
  induction events with
  | nil => intro u k hk; simp at hk
  | cons event rest ih =>
    intro u k hk
    cases k with
    | zero =>
      simp only [ripplesFrom, Nat.add_zero, List.eraseIdx_cons_zero]
      rw [List.filter_cons_of_neg (by simp [rippleNode])]
      apply List.filter_eq_self.mpr
      intro c hc
      have := le_uid_of_mem_ripplesFrom rect rest (u + 1) c hc
      simp only [ne_eq, decide_not, Bool.not_eq_true', decide_eq_false_iff_not]
      omega
    | succ k =>
      simp only [ripplesFrom, List.eraseIdx_cons_succ]
      rw [List.filter_cons_of_pos (by simp [rippleNode])]
      have h := ih (u + 1) k (by simpa using hk)
      rw [show u + 1 + k = u + (k + 1) by omega] at h
      rw [h]

theorem rippleTimers_getElem? :
    ∀ (n u k : Nat), k < n → (rippleTimers u n)[k]? = some ⟨.removeRipple (u + k), 600⟩ := by
  intro n
  induction n with
  | zero => intro u k hk; omega
  | succ n ih =>
    intro u k hk
    cases k with
    | zero => simp [rippleTimers]
    | succ k =>
      simp only [rippleTimers, List.getElem?_cons_succ]
      rw [ih (u + 1) k (by omega)]
      congr 3
      omega

theorem clicks_at (i : Nat) (events : List Event) :
    ∀ (doc : Document) (e : Element), doc.elements[i]? = some e →
      (∀ c ∈ e.children, c.uid < doc.nextUid) →
      (clicks events i doc).elements[i]?
          = some { e with children := e.children ++ ripplesFrom doc.nextUid e.rect events } ∧
        (clicks events i doc).timers = doc.timers ++ rippleTimers doc.nextUid events.length ∧
        (clicks events i doc).nextUid = doc.nextUid + events.length := by
  induction events with
  | nil =>
    intro doc e he _
    simp [clicks, ripplesFrom, rippleTimers, he]
  | cons event rest ih =>
    intro doc e he hfresh
    obtain ⟨h1, h2, h3⟩ := createRippleEffect_at event i doc e he hfresh
    have hfresh1 : ∀ c ∈ e.children ++ [rippleNode doc.nextUid e.rect event],
        c.uid < (createRippleEffect event i doc).nextUid := by
      intro c hc
      rw [h3]
      rw [List.mem_append, List.mem_singleton] at hc
      rcases hc with hc | hc
      · exact Nat.lt_succ_of_lt (hfresh c hc)
      · subst hc; simp [rippleNode]
    obtain ⟨g1, g2, g3⟩ := ih (createRippleEffect event i doc) _ h1 hfresh1
    simp only [clicks, List.foldl_cons] at g1 g2 g3 ⊢
    rw [g1, g2, g3, h2, h3]
    refine ⟨?_, ?_, ?_⟩
    · simp [ripplesFrom]
    · simp [rippleTimers]
    · simp only [List.length_cons]; omega

theorem fireTimer_clicks (i : Nat) (events : List Event) (doc : Document) (e : Element)
    (k : Nat) (he : doc.elements[i]? = some e)
    (hfresh : ∀ c ∈ e.children, c.uid < doc.nextUid) (hk : k < events.length) :
    childrenOf (fireTimer (doc.timers.length + k) (clicks events i doc)) i
        = some (e.children ++ (ripplesFrom doc.nextUid e.rect events).eraseIdx k) ∧
      (fireTimer (doc.timers.length + k) (clicks events i doc)).timers
        = doc.timers ++ (rippleTimers doc.nextUid events.length).eraseIdx k := by
  obtain ⟨h1, h2, -⟩ := clicks_at i events doc e he hfresh
  have ht : (clicks events i doc).timers[doc.timers.length + k]?
      = some ⟨.removeRipple (doc.nextUid + k), 600⟩ := by
    rw [h2, List.getElem?_append_right (Nat.le_add_right _ _), Nat.add_sub_cancel_left]
    exact rippleTimers_getElem? events.length doc.nextUid k hk
  have hold : (e.children.filter (fun c => c.uid ≠ doc.nextUid + k)) = e.children := by
    apply List.filter_eq_self.mpr
    intro c hc
    have := hfresh c hc
    simp only [ne_eq, decide_not, Bool.not_eq_true', decide_eq_false_iff_not]
    omega
  constructor
  · simp only [childrenOf, fireTimer, ht, Callback.run, removeNode, List.getElem?_map, h1,
      Option.map_some', List.filter_append, hold,
      filter_ripplesFrom e.rect events doc.nextUid k hk]
  · simp only [fireTimer, ht]
    simp only [Callback.run, removeNode, h2]
    rw [List.eraseIdx_append_of_length_le (Nat.le_add_right _ _), Nat.add_sub_cancel_left]

theorem length_rippleTimers : ∀ (n u : Nat), (rippleTimers u n).length = n := by
  intro n
  induction n with
  | zero => intro u; rfl
  | succ n ih => intro u; simp [rippleTimers, ih]

theorem rippleTimers_eq_map (u n : Nat) :
    rippleTimers u n = (List.range n).map (fun k => ⟨.removeRipple (u + k), 600⟩) := by
  apply List.ext_getElem?
  intro k
  by_cases hk : k < n
  · rw [rippleTimers_getElem? n u k hk, List.getElem?_map, List.getElem?_range hk]
    rfl
  · rw [List.getElem?_eq_none (by rw [length_rippleTimers]; omega),
      List.getElem?_eq_none (by simp; omega)]

/-! ## The claims -/

/-- C2. On a button bound by `applyButtonAnimations`, whatever its state before,
`mousedown` sets the transform to the press scale and the following `mouseup`
leaves it at the hover scale built from `config.buttonHoverScale`, which is
`scale(1.05)` and neither the rest scale `scale(1)` nor the press scale. -/
theorem mousedown_mouseup_leaves_hover_scale (doc : Document) (i : Nat) (e : Element)
    (down up : Event) (he : doc.elements[i]? = some e)
    (hb : selects buttonSelector e = true)
    (hdown : down.type = .mousedown) (hup : up.type = .mouseup) :
    transformOf (dispatchEvent config down i (applyButtonAnimations doc)) i
        = some "scale(0.98)" ∧
      transformOf (dispatchEvent config up i (dispatchEvent config down i
          (applyButtonAnimations doc))) i
        = some ("scale(" ++ config.buttonHoverScale.toJSString ++ ")") ∧
      "scale(" ++ config.buttonHoverScale.toJSString ++ ")" = "scale(1.05)" ∧
      "scale(" ++ config.buttonHoverScale.toJSString ++ ")" ≠ "scale(1)" ∧
      "scale(" ++ config.buttonHoverScale.toJSString ++ ")"
        ≠ "scale(" ++ config.buttonPressScale.toJSString ++ ")" := by
  have h0 := applyButtonAnimations_bound he hb
  refine ⟨?_, ?_, by decide, by decide, by decide⟩
  · obtain ⟨d', e', hrun, he', -⟩ := dispatch_button_last config down i _ e (bindButton i e)
      ⟨.mousedown, .buttonMousedown i⟩ h0 rfl (by simp [buttonListeners, hdown])
    rw [hrun]
    exact run_buttonMousedown config down i d' e' he'
  · obtain ⟨e1, he1, hl1⟩ := getElem?_of_listenersOf
      (dispatchEvent_listenersOf config down i (applyButtonAnimations doc)) h0
    obtain ⟨d', e', hrun, he', -⟩ := dispatch_button_last config up i _ e e1
      ⟨.mouseup, .buttonMouseup i⟩ he1 hl1 (by simp [buttonListeners, hup])
    rw [hrun]
    exact run_buttonMouseup config up i d' e' he'

theorem mousedown_mouseup_leaves_hover_scale_witness :
    transformOf (dispatchEvent config (mouseEvent .mouseup) 0
      (dispatchEvent config (mouseEvent .mousedown) 0
        (applyButtonAnimations plainButtonDocument))) 0 = some "scale(1.05)" :=
  (mousedown_mouseup_leaves_hover_scale plainButtonDocument 0 plainButton
    (mouseEvent .mousedown) (mouseEvent .mouseup) rfl (by decide) rfl rfl).2.1


/-- C1, refuted as stated. On the plain button (no inline transform, computed
transform `none`) `mouseenter` then `mouseleave` leaves the inline transform
`scale(1)`, which is neither the inline nor the computed transform the button had
before the binding. -/
theorem hover_roundtrip_transform_counterexample :
    transformOf (dispatchEvent config (mouseEvent .mouseleave) 0
        (dispatchEvent config (mouseEvent .mouseenter) 0
          (applyButtonAnimations plainButtonDocument))) 0 = some "scale(1)" ∧
      transformOf (dispatchEvent config (mouseEvent .mouseleave) 0
        (dispatchEvent config (mouseEvent .mouseenter) 0
          (applyButtonAnimations plainButtonDocument))) 0
        ≠ transformOf plainButtonDocument 0 ∧
      transformOf (dispatchEvent config (mouseEvent .mouseleave) 0
        (dispatchEvent config (mouseEvent .mouseenter) 0
          (applyButtonAnimations plainButtonDocument))) 0
        ≠ some (getComputedStyle plainButtonDocument 0).transform := by
  decide

/-- C1, amended. On a button bound by `applyButtonAnimations`, whatever its state
before, `mouseenter` then `mouseleave` leaves the inline box shadow equal to the
computed box shadow read at bind time and the inline transform equal to the rest
scale `scale(1)`. -/
theorem hover_roundtrip_restores_shadow_and_rest_scale (cfg : Config) (doc : Document)
    (i : Nat) (e : Element) (enter leave : Event) (he : doc.elements[i]? = some e)
    (hb : selects buttonSelector e = true)
    (henter : enter.type = .mouseenter) (hleave : leave.type = .mouseleave) :
    transformOf (dispatchEvent cfg enter i (applyButtonAnimations doc)) i
        = some ("scale(" ++ cfg.buttonHoverScale.toJSString ++ ")") ∧
      boxShadowOf (dispatchEvent cfg leave i (dispatchEvent cfg enter i
        (applyButtonAnimations doc))) i = some (getComputedStyle doc i).boxShadow ∧
      transformOf (dispatchEvent cfg leave i (dispatchEvent cfg enter i
        (applyButtonAnimations doc))) i = some "scale(1)" := by
  have h0 := applyButtonAnimations_bound he hb
  refine ⟨?_, ?_⟩
  · obtain ⟨d', e', hrun, he', -⟩ := dispatch_button_last cfg enter i _ e (bindButton i e)
      ⟨.mouseenter, .buttonMouseenter i⟩ h0 rfl (by simp [buttonListeners, henter])
    rw [hrun]
    exact (run_buttonMouseenter cfg enter i d' e' he').1
  · obtain ⟨e1, he1, hl1⟩ := getElem?_of_listenersOf
      (dispatchEvent_listenersOf cfg enter i (applyButtonAnimations doc)) h0
    obtain ⟨d', e', hrun, he', -⟩ := dispatch_button_last cfg leave i _ e e1
      ⟨.mouseleave, .buttonMouseleave i e.computed.boxShadow⟩ he1 hl1
      (by simp [buttonListeners, hleave])
    rw [hrun]
    have hc : (getComputedStyle doc i).boxShadow = e.computed.boxShadow := by
      simp [getComputedStyle, he]
    rw [hc]
    exact (run_buttonMouseleave cfg leave i _ d' e' he').symm

theorem hover_roundtrip_restores_shadow_and_rest_scale_witness :
    boxShadowOf (dispatchEvent config (mouseEvent .mouseleave) 0
        (dispatchEvent config (mouseEvent .mouseenter) 0
          (applyButtonAnimations plainButtonDocument))) 0 = some "none" ∧
      transformOf (dispatchEvent config (mouseEvent .mouseleave) 0
        (dispatchEvent config (mouseEvent .mouseenter) 0
          (applyButtonAnimations plainButtonDocument))) 0 = some "scale(1)" :=
  (hover_roundtrip_restores_shadow_and_rest_scale config plainButtonDocument 0 plainButton
    (mouseEvent .mouseenter) (mouseEvent .mouseleave) rfl (by decide) rfl rfl).2

/-- C7. On a button bound by `applyButtonAnimations` whose computed box shadow at
bind time is `s`, the inline box shadow is `config.hoverElevation` after
`mouseenter`, is still that after any `mousedown` and `mouseup` events that follow,
and is `s` again after the `mouseleave` that follows them. -/
theorem hover_shadow_scenario (doc : Document) (i : Nat) (e : Element) (s : String)
    (enter leave : Event) (presses : List Event)
    (he : doc.elements[i]? = some e) (hb : selects buttonSelector e = true)
    (hs : (getComputedStyle doc i).boxShadow = s)
    (hreg : ∀ l ∈ e.listeners, l.type = l.handler.eventType)
    (henter : enter.type = .mouseenter) (hleave : leave.type = .mouseleave)
    (hp : ∀ event ∈ presses, event.type = .mousedown ∨ event.type = .mouseup) :
    boxShadowOf (dispatchEvent config enter i (applyButtonAnimations doc)) i
        = some "0px 6px 16px rgba(108, 92, 231, 0.25)" ∧
      boxShadowOf (dispatchEvents config presses i
        (dispatchEvent config enter i (applyButtonAnimations doc))) i
        = some config.hoverElevation ∧
      boxShadowOf (dispatchEvent config leave i (dispatchEvents config presses i
        (dispatchEvent config enter i (applyButtonAnimations doc)))) i = some s := by
  have h0 := applyButtonAnimations_bound he hb
  have hs' : e.computed.boxShadow = s := by simpa [getComputedStyle, he] using hs
  have henterShadow : boxShadowOf (dispatchEvent config enter i (applyButtonAnimations doc)) i
      = some config.hoverElevation := by
    obtain ⟨d', e', hrun, he', -⟩ := dispatch_button_last config enter i _ e (bindButton i e)
      ⟨.mouseenter, .buttonMouseenter i⟩ h0 rfl (by simp [buttonListeners, henter])
    rw [hrun]
    exact (run_buttonMouseenter config enter i d' e' he').2
  obtain ⟨e1, he1, hl1⟩ := getElem?_of_listenersOf
    (dispatchEvent_listenersOf config enter i (applyButtonAnimations doc)) h0
  refine ⟨henterShadow, ?_, ?_⟩
  · rw [boxShadowOf_eq_shadowsOf, dispatchEvents_press_shadowsOf config i presses hp _ e1 he1
      (by rw [hl1]; exact bindButton_registered i e hreg), ← boxShadowOf_eq_shadowsOf]
    exact henterShadow
  · obtain ⟨e2, he2, hl2⟩ := getElem?_of_listenersOf
      (dispatchEvents_listenersOf config i presses _) he1
    obtain ⟨d', e', hrun, he', -⟩ := dispatch_button_last config leave i _ e e2
      ⟨.mouseleave, .buttonMouseleave i e.computed.boxShadow⟩ he2 (hl2.trans hl1)
      (by simp [buttonListeners, hleave])
    rw [hrun, ← hs']
    exact (run_buttonMouseleave config leave i _ d' e' he').2

theorem hover_shadow_scenario_witness :
    boxShadowOf (dispatchEvent config (mouseEvent .mouseenter) 0
        (applyButtonAnimations plainButtonDocument)) 0
        = some "0px 6px 16px rgba(108, 92, 231, 0.25)" ∧
      boxShadowOf (dispatchEvents config [mouseEvent .mousedown, mouseEvent .mouseup] 0
        (dispatchEvent config (mouseEvent .mouseenter) 0
          (applyButtonAnimations plainButtonDocument))) 0
        = some config.hoverElevation ∧
      boxShadowOf (dispatchEvent config (mouseEvent .mouseleave) 0
        (dispatchEvents config [mouseEvent .mousedown, mouseEvent .mouseup] 0
          (dispatchEvent config (mouseEvent .mouseenter) 0
            (applyButtonAnimations plainButtonDocument)))) 0 = some "none" :=
  hover_shadow_scenario plainButtonDocument 0 plainButton "none" (mouseEvent .mouseenter)
    (mouseEvent .mouseleave) [mouseEvent .mousedown, mouseEvent .mouseup] rfl (by decide) rfl
    (by decide) rfl rfl (by decide)

/-- C8. A card bound by `applyCardAnimations` carries a `mouseleave` listener that
holds the computed box shadow and transform read at bind time; after any events on
the card that end with `mouseleave` its inline box shadow and transform are those
values, and after any that end with `mouseenter` they are `config.hoverElevation`
and `translateY(-5px)`. -/
theorem card_rest_state_restored (doc : Document) (i : Nat) (e : Element)
    (events : List Event) (enter leave : Event)
    (he : doc.elements[i]? = some e) (hc : selects cardSelector e = true)
    (henter : enter.type = .mouseenter) (hleave : leave.type = .mouseleave) :
    (Option.map Element.listeners (applyCardAnimations doc).elements[i]?
        = some (e.listeners ++ [⟨.mouseenter, .cardMouseenter i⟩,
            ⟨.mouseleave, .cardMouseleave i (getComputedStyle doc i).boxShadow
              (getComputedStyle doc i).transform⟩])) ∧
      boxShadowOf (dispatchEvent config leave i (dispatchEvents config events i
        (applyCardAnimations doc))) i = some (getComputedStyle doc i).boxShadow ∧
      transformOf (dispatchEvent config leave i (dispatchEvents config events i
        (applyCardAnimations doc))) i = some (getComputedStyle doc i).transform ∧
      boxShadowOf (dispatchEvent config enter i (dispatchEvents config events i
        (applyCardAnimations doc))) i = some config.hoverElevation ∧
      transformOf (dispatchEvent config enter i (dispatchEvents config events i
        (applyCardAnimations doc))) i = some "translateY(-5px)" := by
  have h0 := applyCardAnimations_bound he hc
  have hcs : getComputedStyle doc i = e.computed := by simp [getComputedStyle, he]
  obtain ⟨e1, he1, hl1⟩ := getElem?_of_listenersOf
    (dispatchEvents_listenersOf config i events (applyCardAnimations doc)) h0
  obtain ⟨d', e', hrun, he'⟩ := dispatch_card_last config leave i _ e e1
    ⟨.mouseleave, .cardMouseleave i e.computed.boxShadow e.computed.transform⟩ he1 hl1
    (by simp [cardListeners, hleave])
  obtain ⟨d'', e'', hrun', he''⟩ := dispatch_card_last config enter i _ e e1
    ⟨.mouseenter, .cardMouseenter i⟩ he1 hl1 (by simp [cardListeners, henter])
  rw [hrun, hrun', hcs]
  refine ⟨by rw [h0]; rfl, ?_, ?_, ?_, ?_⟩
  · exact (run_cardMouseleave config leave i _ _ d' e' he').2
  · exact (run_cardMouseleave config leave i _ _ d' e' he').1
  · exact (run_cardMouseenter config enter i d'' e'' he'').2
  · exact (run_cardMouseenter config enter i d'' e'' he'').1

theorem card_rest_state_restored_witness :
    boxShadowOf (dispatchEvent config (mouseEvent .mouseleave) 0
        (dispatchEvents config [mouseEvent .mouseenter, mouseEvent .mouseleave,
          mouseEvent .mouseenter] 0 (applyCardAnimations serverItemDocument))) 0
        = some "rgba(0, 0, 0, 0.2) 0px 1px 3px 0px" ∧
      transformOf (dispatchEvent config (mouseEvent .mouseleave) 0
        (dispatchEvents config [mouseEvent .mouseenter, mouseEvent .mouseleave,
          mouseEvent .mouseenter] 0 (applyCardAnimations serverItemDocument))) 0
        = some "matrix(1, 0, 0, 1, 0, 4)" :=
  let h := card_rest_state_restored serverItemDocument 0 serverItem
    [mouseEvent .mouseenter, mouseEvent .mouseleave, mouseEvent .mouseenter]
    (mouseEvent .mouseenter) (mouseEvent .mouseleave) rfl (by decide) rfl rfl
  ⟨h.2.1, h.2.2.1⟩

/-- C10. Listener registration by `applyButtonAnimations` is not deduplicated:
after `k` invocations a matched button carries, for each of `mouseenter`,
`mouseleave`, `mousedown` and `mouseup`, `k` listeners more than before the first
invocation, exactly `k` when it carried none for the event; one more invocation
adds one more listener per event and so changes the document again. -/
theorem button_listeners_accumulate (doc : Document) (k i : Nat) (e : Element)
    (he : doc.elements[i]? = some e) (hb : selects buttonSelector e = true) :
    ∃ ek ek1, (applyButtonAnimations^[k] doc).elements[i]? = some ek ∧
      (applyButtonAnimations^[k + 1] doc).elements[i]? = some ek1 ∧
      (∀ type ∈ [EventType.mouseenter, .mouseleave, .mousedown, .mouseup],
        listenerCount type ek = listenerCount type e + k ∧
        (listenerCount type e = 0 → listenerCount type ek = k) ∧
        listenerCount type ek1 = listenerCount type ek + 1) ∧
      applyButtonAnimations^[k + 1] doc ≠ applyButtonAnimations^[k] doc := by
  obtain ⟨ek, hek, -, hcount⟩ := iterate_applyButtonAnimations_bound k he hb
  obtain ⟨ek1, hek1, -, hcount1⟩ := iterate_applyButtonAnimations_bound (k + 1) he hb
  refine ⟨ek, ek1, hek, hek1, ?_, ?_⟩
  · intro type hty
    refine ⟨hcount type hty, ?_, ?_⟩
    · intro hzero
      rw [hcount type hty, hzero, Nat.zero_add]
    · rw [hcount1 type hty, hcount type hty]; omega
  · intro heq
    rw [heq, hek] at hek1
    have h1 := hcount1 .mouseenter (by simp)
    have h0 := hcount .mouseenter (by simp)
    rw [← Option.some.inj hek1] at h1
    omega

theorem button_listeners_accumulate_witness :
    ∃ ek, (applyButtonAnimations^[3] plainButtonDocument).elements[0]? = some ek ∧
      listenerCount .mouseenter ek = 3 ∧ listenerCount .mouseup ek = 3 := by
  obtain ⟨ek, _, hek, _, hcount, _⟩ :=
    button_listeners_accumulate plainButtonDocument 3 0 plainButton rfl (by decide)
  exact ⟨ek, hek, (hcount .mouseenter (by decide)).2.1 (by decide),
    (hcount .mouseup (by decide)).2.1 (by decide)⟩

/-- C3. With `statusIndicatorPulse` true, after `applyStatusIndicatorEffects` a
matched indicator whose `status` attribute is `connected` has the animation
`pulse 2s infinite`, one whose attribute is `connecting` has `blink 1.5s infinite`,
and one with another value or without the attribute keeps the animation it had. -/
theorem status_indicator_animation (cfg : Config) (doc : Document) (i : Nat) (e : Element)
    (hcfg : cfg.statusIndicatorPulse = true) (he : doc.elements[i]? = some e)
    (hsel : selects statusSelector e = true) :
    (e.getAttribute "status" = some "connected" →
        animationOf (applyStatusIndicatorEffects cfg doc) i = some "pulse 2s infinite") ∧
      (e.getAttribute "status" = some "connecting" →
        animationOf (applyStatusIndicatorEffects cfg doc) i = some "blink 1.5s infinite") ∧
      (e.getAttribute "status" ≠ some "connected" →
        e.getAttribute "status" ≠ some "connecting" →
        animationOf (applyStatusIndicatorEffects cfg doc) i = some e.style.animation) := by
  have h : animationOf (applyStatusIndicatorEffects cfg doc) i
      = some (bindIndicator e).style.animation := by
    rw [animationOf, applyStatusIndicatorEffects_getElem? cfg doc i hcfg, he]
    simp [hsel]
  rw [h]
  refine ⟨fun h1 => ?_, fun h2 => ?_, fun h1 h2 => ?_⟩
  · simp only [Element.getAttribute] at h1
    simp [bindIndicator, Element.getAttribute, h1]
  · simp only [Element.getAttribute] at h2
    simp [bindIndicator, Element.getAttribute, h2]
  · simp only [Element.getAttribute] at h1 h2
    simp [bindIndicator, Element.getAttribute, h1, h2]

theorem status_indicator_animation_witness :
    animationOf (applyStatusIndicatorEffects config statusDocument) 0
        = some "pulse 2s infinite" ∧
      animationOf (applyStatusIndicatorEffects config statusDocument) 1
        = some "blink 1.5s infinite" ∧
      animationOf (applyStatusIndicatorEffects config statusDocument) 2 = some "fade 1s" ∧
      animationOf (applyStatusIndicatorEffects config statusDocument) 3 = some "fade 1s" :=
  ⟨(status_indicator_animation config statusDocument 0 _ rfl rfl (by decide)).1 (by decide),
    (status_indicator_animation config statusDocument 1 _ rfl rfl (by decide)).2.1 (by decide),
    (status_indicator_animation config statusDocument 2 _ rfl rfl (by decide)).2.2
      (by decide) (by decide),
    (status_indicator_animation config statusDocument 3 _ rfl rfl (by decide)).2.2
      (by decide) (by decide)⟩

/-- C4. With `enableGradientShift` false, `applyGradientEffects` leaves the whole
document as it was: no style of an element changes, neither `animation` nor
`backgroundSize`, and no style block is appended to the head. -/
theorem gradient_disabled_changes_nothing (cfg : Config) (doc : Document)
    (hcfg : cfg.enableGradientShift = false) : applyGradientEffects cfg doc = doc := by
  simp [applyGradientEffects, hcfg]

theorem gradient_disabled_changes_nothing_witness :
    querySelectorAll gradientSelector gradientDocument = [0] ∧
      applyGradientEffects { config with enableGradientShift := false } gradientDocument
        = gradientDocument ∧
      animationOf (applyGradientEffects { config with enableGradientShift := false }
        gradientDocument) 0 = some "" :=
  ⟨by decide,
    gradient_disabled_changes_nothing { config with enableGradientShift := false }
      gradientDocument rfl,
    by rw [gradient_disabled_changes_nothing { config with enableGradientShift := false }
      gradientDocument rfl]; decide⟩

/-- C9, refuted as stated. On a document without a button `applyRippleEffect`
appends its style block to the head all the same. -/
theorem ripple_binder_without_match_counterexample :
    querySelectorAll buttonSelector serverItemDocument = [] ∧
      (applyRippleEffect serverItemDocument).head = [rippleStyleText] ∧
      applyRippleEffect serverItemDocument ≠ serverItemDocument := by
  refine ⟨by decide, rfl, fun h => ?_⟩
  have hhead : (applyRippleEffect serverItemDocument).head = serverItemDocument.head := by
    rw [h]
  exact List.cons_ne_nil _ _ hhead

/-- C9, amended. When the selector of a binder matches no element, the call
registers no listener and changes no element; `applyButtonAnimations`,
`applyCardAnimations`, `applyStatusIndicatorEffects`, `applyGradientEffects` and
`addTransitionEffectsToNavigation` leave the whole document unchanged, and
`applyRippleEffect` appends its one style block to the head and changes nothing
else. -/
theorem binder_without_match (cfg : Config) (b : Binder) (doc : Document)
    (hnone : querySelectorAll b.selector doc = []) :
    b.call cfg doc =
      if b = .applyRippleEffect then { doc with head := doc.head ++ [rippleStyleText] }
      else doc := by
  cases b <;>
    simp only [Binder.selector] at hnone <;>
    simp [Binder.call, applyButtonAnimations, applyCardAnimations,
      applyStatusIndicatorEffects, applyGradientEffects, addTransitionEffectsToNavigation,
      applyRippleEffect, hnone, forEach, appendStyle]

theorem binder_without_match_witness :
    Binder.call config .applyStatusIndicatorEffects serverItemDocument = serverItemDocument ∧
      Binder.call config .applyRippleEffect serverItemDocument
        = { serverItemDocument with head := [rippleStyleText] } :=
  ⟨binder_without_match config .applyStatusIndicatorEffects serverItemDocument (by decide),
    binder_without_match config .applyRippleEffect serverItemDocument (by decide)⟩

/-- C5. A click on a button with the bounding rectangle `e.rect` makes
`createRippleEffect` append one new child to the button and keep the children it
had, in their order: a `span` of class `ripple` whose width and height are the
size in pixels and whose left and top are the two offsets in pixels.  The size is
the larger of the width and the height; its half, `clientX - left`,
`clientY - top` and the two offsets `clientX - left - size / 2` and
`clientY - top - size / 2` are each the binary64 number nearest to the exact
result of the operation on its operands. -/
theorem click_appends_one_ripple (event : Event) (i : Nat) (doc : Document) (e : Element)
    (he : doc.elements[i]? = some e) (hfresh : ∀ c ∈ e.children, c.uid < doc.nextUid) :
    (∃ ripple : Node,
      childrenOf (createRippleEffect event i doc) i = some (e.children ++ [ripple]) ∧
      ripple ∉ e.children ∧
      ripple.localName = "span" ∧ ripple.classList = ["ripple"] ∧
      ripple.style.width = (rippleSize e.rect).toJSString ++ "px" ∧
      ripple.style.height = (rippleSize e.rect).toJSString ++ "px" ∧
      ripple.style.left = (rippleLeft e.rect event).toJSString ++ "px" ∧
      ripple.style.top = (rippleTop e.rect event).toJSString ++ "px") ∧
    (e.rect.width.isFinite = true → e.rect.height.isFinite = true →
      (rippleSize e.rect = e.rect.width ∨ rippleSize e.rect = e.rect.height) ∧
      (rippleSize e.rect).toRat = max e.rect.width.toRat e.rect.height.toRat ∧
      JSNumber.IsNearest ((rippleSize e.rect).toRat / 2) (rippleSize e.rect).half ∧
      ((event.clientX.sub e.rect.left).isFinite = true →
        (rippleLeft e.rect event).isFinite = true →
        JSNumber.IsNearest
          ((event.clientX.sub e.rect.left).toRat - (rippleSize e.rect).half.toRat)
          (rippleLeft e.rect event)) ∧
      ((event.clientY.sub e.rect.top).isFinite = true →
        (rippleTop e.rect event).isFinite = true →
        JSNumber.IsNearest
          ((event.clientY.sub e.rect.top).toRat - (rippleSize e.rect).half.toRat)
          (rippleTop e.rect event))) ∧
    (event.clientX.isFinite = true → e.rect.left.isFinite = true →
      (event.clientX.sub e.rect.left).isFinite = true →
      JSNumber.IsNearest (event.clientX.toRat - e.rect.left.toRat)
        (event.clientX.sub e.rect.left)) ∧
    (event.clientY.isFinite = true → e.rect.top.isFinite = true →
      (event.clientY.sub e.rect.top).isFinite = true →
      JSNumber.IsNearest (event.clientY.toRat - e.rect.top.toRat)
        (event.clientY.sub e.rect.top)) := by
  refine ⟨⟨rippleNode doc.nextUid e.rect event, ?_, ?_, rfl, rfl, rfl, rfl, rfl, rfl⟩, ?_,
    fun hx hl hfin => JSNumber.sub_isNearest _ _ hx hl hfin,
    fun hy ht hfin => JSNumber.sub_isNearest _ _ hy ht hfin⟩
  · rw [childrenOf, (createRippleEffect_at event i doc e he hfresh).1]
    rfl
  · intro hmem
    exact Nat.lt_irrefl _ (hfresh _ hmem)
  · intro hw hh
    have hmax := JSNumber.max_spec e.rect.width e.rect.height hw hh
    have hsize : (rippleSize e.rect).isFinite = true := by
      rcases hmax.1 with h | h
      · rw [rippleSize, h]; exact hw
      · rw [rippleSize, h]; exact hh
    have hhalf := JSNumber.half_isFinite _ hsize
    exact ⟨hmax.1, hmax.2, JSNumber.half_isNearest _ hsize,
      fun hdx hfin => JSNumber.sub_isNearest _ _ hdx hhalf hfin,
      fun hdy hfin => JSNumber.sub_isNearest _ _ hdy hhalf hfin⟩

theorem click_appends_one_ripple_witness :
    (∃ ripple : Node,
      childrenOf (dispatchEvent config (mouseEvent .click) 0
        (applyRippleEffect plainButtonDocument)) 0 = some [ripple] ∧
      ripple.style.width = "100px" ∧ ripple.style.height = "100px" ∧
      ripple.style.left = "-30px" ∧ ripple.style.top = "-35px") ∧
    (∃ ripple : Node,
      childrenOf (createRippleEffect
        (clickAt (JSNumber.ofDecimal 3 1) (JSNumber.ofDecimal 3 1)) 0 pointDocument) 0
        = some [ripple] ∧
      ripple.style.width = "0px" ∧
      ripple.style.left = "0.19999999999999998px" ∧
      ripple.style.top = "0.09999999999999998px") ∧
    (∃ ripple : Node,
      childrenOf (createRippleEffect
        (clickAt (JSNumber.ofDecimal 100 0) (JSNumber.ofDecimal 3 1)) 0 fractionalDocument) 0
        = some [ripple] ∧
      ripple.style.width = "80.3px" ∧
      ripple.style.left = "51.75000000000001px" ∧
      ripple.style.top = "-40.05px") := by
  refine ⟨?_, ?_, ?_⟩
  · obtain ⟨ripple, h, -, -, -, hw, hh, hl, ht⟩ := (click_appends_one_ripple
      (mouseEvent .click) 0 (applyRippleEffect plainButtonDocument)
      { plainButton with
        style := { Style.unset with position := "relative", overflow := "hidden" }
        listeners := [⟨.click, .createRippleEffect⟩] }
      (by decide) (by decide)).1
    exact ⟨ripple, h, hw.trans (by decide), hh.trans (by decide), hl.trans (by decide),
      ht.trans (by decide)⟩
  · obtain ⟨ripple, h, -, -, -, hw, -, hl, ht⟩ := (click_appends_one_ripple
      (clickAt (JSNumber.ofDecimal 3 1) (JSNumber.ofDecimal 3 1)) 0 pointDocument pointButton
      rfl (by decide)).1
    exact ⟨ripple, h, hw.trans (by decide), hl.trans (by decide), ht.trans (by decide)⟩
  · obtain ⟨ripple, h, -, -, -, hw, -, hl, ht⟩ := (click_appends_one_ripple
      (clickAt (JSNumber.ofDecimal 100 0) (JSNumber.ofDecimal 3 1)) 0 fractionalDocument
      fractionalButton rfl (by decide)).1
    exact ⟨ripple, h, hw.trans (by decide), hl.trans (by decide), ht.trans (by decide)⟩

/-- C6. Each click makes `createRippleEffect` schedule one timer with the delay 600
whose callback removes the overlay of that click.  After a single click and its
callback the child list of the button is the one before the click and the timer
has left the queue; after several clicks the callback of the click `k` removes the
overlay of the click `k` and leaves the other overlays and the earlier children in
place. -/
theorem ripple_timer_removes_own_overlay (i : Nat) (doc : Document) (e : Element)
    (event : Event) (events : List Event) (k : Nat)
    (he : doc.elements[i]? = some e) (hfresh : ∀ c ∈ e.children, c.uid < doc.nextUid)
    (hk : k < events.length) :
    (createRippleEffect event i doc).timers
        = doc.timers ++ [⟨.removeRipple doc.nextUid, 600⟩] ∧
      childrenOf (fireTimer doc.timers.length (createRippleEffect event i doc)) i
        = some e.children ∧
      (fireTimer doc.timers.length (createRippleEffect event i doc)).timers = doc.timers ∧
      (clicks events i doc).timers = doc.timers ++
        (List.range events.length).map (fun j => ⟨.removeRipple (doc.nextUid + j), 600⟩) ∧
      childrenOf (clicks events i doc) i
        = some (e.children ++ ripplesFrom doc.nextUid e.rect events) ∧
      childrenOf (fireTimer (doc.timers.length + k) (clicks events i doc)) i
        = some (e.children ++ (ripplesFrom doc.nextUid e.rect events).eraseIdx k) := by
  have hone := fireTimer_clicks i [event] doc e 0 he hfresh (by simp)
  have hmany := fireTimer_clicks i events doc e k he hfresh hk
  obtain ⟨h1, h2, -⟩ := clicks_at i events doc e he hfresh
  refine ⟨(createRippleEffect_at event i doc e he hfresh).2.1, ?_, ?_, ?_, ?_, hmany.1⟩
  · have h := hone.1
    simpa [clicks, ripplesFrom] using h
  · have h := hone.2
    simpa [clicks, rippleTimers] using h
  · rw [h2, rippleTimers_eq_map]
  · rw [childrenOf, h1]
    rfl

theorem ripple_timer_removes_own_overlay_witness :
    childrenOf (fireTimer 0 (clicks [mouseEvent .click,
      clickAt (JSNumber.ofDecimal 60 0) (JSNumber.ofDecimal 25 0)] 0
        (applyRippleEffect plainButtonDocument))) 0
        = some [rippleNode 1 plainButton.rect
          (clickAt (JSNumber.ofDecimal 60 0) (JSNumber.ofDecimal 25 0))] ∧
      childrenOf (fireTimer 0 (createRippleEffect (mouseEvent .click) 0
        (applyRippleEffect plainButtonDocument))) 0 = some [] :=
  let h := ripple_timer_removes_own_overlay 0 (applyRippleEffect plainButtonDocument)
    { plainButton with
      style := { Style.unset with position := "relative", overflow := "hidden" }
      listeners := [⟨.click, .createRippleEffect⟩] }
    (mouseEvent .click) [mouseEvent .click,
      clickAt (JSNumber.ofDecimal 60 0) (JSNumber.ofDecimal 25 0)] 0
    (by decide) (by decide) (by decide)
  ⟨h.2.2.2.2.2, h.2.1⟩

end AniData
